import Mathlib

/-!
Verification development for the conversation-orchestration core
(decision engine, slot-filling dialog engine, escalation/pause state
machine) of the orchestrator repository.  Definitions are shallow
embeddings of the TypeScript sources:

  * `src/utils/service_parser.ts` (slot parsers),
  * `src/handlers/service_handler.ts` (dialog engine),
  * `src/repos/conv_state_repo.ts` (conversation state store),
  * `src/handlers/escalation_handler.ts` (escalation state machine),
  * `src/app/intent_router.ts`, `src/middleware/pauseGate.ts`,
    `src/webhooks/chatwoot_webhook.ts` (router + staff commands),
  * `src/app/decision_engine.ts`, `src/handlers/smalltalk_handler.ts`
    (intent classifier).

JavaScript regular expressions are translated into hand-written
matchers over `List Char` that reproduce leftmost matching, greedy
quantifiers with backtracking, and ASCII `\b` word-boundary semantics
(word characters are `[A-Za-z0-9_]`).  JavaScript `Date` arithmetic is
an external library; it is abstracted as a `DateEnv` record of the
formatting operations the date parsers use — the matching logic itself
is embedded faithfully and never depends on the calendar values.
-/

set_option maxRecDepth 10000

namespace Orchestrator

/-! ### Basic string machinery (ASCII model of JS string primitives) -/

def chars (s : String) : List Char := s.data

def ofChars (l : List Char) : String := String.mk l

/-- ASCII lower-casing of one character (model of JS `toLowerCase`). -/
def lowerChar (c : Char) : Char :=
  if 65 ≤ c.toNat ∧ c.toNat ≤ 90 then Char.ofNat (c.toNat + 32) else c

def lowerL (l : List Char) : List Char := l.map lowerChar

/-- Whitespace as used by JS `trim` / `\s` (ASCII fragment). -/
def isWs (c : Char) : Bool := c = ' ' || c = '\t' || c = '\n' || c = '\r'

def trimL (l : List Char) : List Char :=
  ((l.dropWhile isWs).reverse.dropWhile isWs).reverse

def isDigitC (c : Char) : Bool := 48 ≤ c.toNat && c.toNat ≤ 57

def isLowerAlpha (c : Char) : Bool := 97 ≤ c.toNat && c.toNat ≤ 122

def isUpperAlpha (c : Char) : Bool := 65 ≤ c.toNat && c.toNat ≤ 90

/-- JS regex word character `[A-Za-z0-9_]`. -/
def isWordC (c : Char) : Bool := isDigitC c || isLowerAlpha c || isUpperAlpha c || c = '_'

/-- `\b` between a previous character (`none` at string start) and the rest. -/
def bdry : Option Char → List Char → Bool
  | none, [] => false
  | none, c :: _ => isWordC c
  | some p, [] => isWordC p
  | some p, c :: _ => xor (isWordC p) (isWordC c)

/-- `\b` right after a consumed word character. -/
def bdryW : List Char → Bool
  | [] => true
  | c :: _ => !(isWordC c)

def digitVal (c : Char) : Nat := c.toNat - 48

/-- Strip a literal character sequence, returning the rest. -/
def pfx : List Char → List Char → Option (List Char)
  | [], l => some l
  | _ :: _, [] => none
  | a :: as, b :: bs => if a = b then pfx as bs else none

/-- Case-insensitive `pfx` (pattern given in lower case). -/
def ciPfx : List Char → List Char → Option (List Char)
  | [], l => some l
  | _ :: _, [] => none
  | a :: as, b :: bs => if a = lowerChar b then ciPfx as bs else none

/-- Substring containment (model of JS `String.includes`). -/
def containsSub (needle : List Char) : List Char → Bool
  | [] => (pfx needle []).isSome
  | c :: t => (pfx needle (c :: t)).isSome || containsSub needle t

def wsStar (l : List Char) : List Char := l.dropWhile isWs

/-- `\s+` (greedy; the characters after the run are never whitespace). -/
def wsPlus (l : List Char) : Option (List Char) :=
  match l with
  | c :: t => if isWs c then some (wsStar t) else none
  | [] => none

def firstSome : List (Option α) → Option α
  | [] => none
  | o :: t => o.orElse (fun _ => firstSome t)

/-- Leftmost-position scanner: try the position matcher at every suffix,
    tracking the previous character for `\b` tests. -/
def scanP (m : Option Char → List Char → Option α) : Option Char → List Char → Option α
  | prev, [] => m prev []
  | prev, c :: cs => (m prev (c :: cs)).orElse (fun _ => scanP m (some c) cs)

/-- `\d{1,2}` greedy with backtracking, in continuation style. -/
def dig2K (l : List Char) (k : Nat → List Char → Option α) : Option α :=
  match l with
  | c1 :: r1 =>
    if isDigitC c1 then
      match r1 with
      | c2 :: r2 =>
        if isDigitC c2 then
          (k (digitVal c1 * 10 + digitVal c2) r2).orElse (fun _ => k (digitVal c1) r1)
        else k (digitVal c1) r1
      | [] => k (digitVal c1) []
    else none
  | [] => none

/-- Literal word followed by `\b` (the word ends in a word character). -/
def wordBd (w : List Char) (l : List Char) : Option (List Char) :=
  match pfx w l with
  | some r => if bdryW r then some r else none
  | none => none

/-- Ordered alternation of words, each followed by `\b`. -/
def anyWordBd (ws : List (List Char)) (l : List Char) : Option (List Char) :=
  match ws with
  | [] => none
  | w :: t => (wordBd w l).orElse (fun _ => anyWordBd t l)

/-- Ordered alternation of words, each followed by `\b`, returning the word. -/
def anyWordBdCap (ws : List (List Char)) (l : List Char) : Option (List Char) :=
  match ws with
  | [] => none
  | w :: t => ((wordBd w l).map (fun _ => w)).orElse (fun _ => anyWordBdCap t l)

/-- Ordered alternation of bare literals (no trailing `\b`), returning the rest. -/
def anyWord (ws : List (List Char)) (l : List Char) : Option (List Char) :=
  match ws with
  | [] => none
  | w :: t => (pfx w l).orElse (fun _ => anyWord t l)

/-- Word sequence `w1\s+w2\s+…\s+wn` with `\b` after the final word. -/
def seqBd : List (List Char) → List Char → Option (List Char)
  | [], _ => none
  | [w], l => wordBd w l
  | w :: ws, l =>
    match pfx w l with
    | some r =>
      match wsPlus r with
      | some r2 => seqBd ws r2
      | none => none
    | none => none

/-- `.test` of `\b(alt1|alt2|…)\b` where each alternative is a
    whitespace-separated word sequence. -/
def hasSeqAlt (alts : List (List (List Char))) (l : List Char) : Bool :=
  (scanP (fun prev t =>
    if bdry prev t then firstSome (alts.map (fun a => seqBd a t)) else none) none l).isSome

/-- `.test` of `\bw\b` for a single word. -/
def hasWordL (w : List Char) (l : List Char) : Bool := hasSeqAlt [[w]] l

/-! ### Levenshtein distance and fuzzy weekday/month matching
    (`lev`, `fuzzyWeekday`, `fuzzyMonth` in `service_parser.ts`). -/

def levGo (ca : Char) : List Char → List Nat → Nat → List Nat
  | cb :: bs, diag :: up :: ps, left =>
    let cost := if ca = cb then 0 else 1
    let cur := Nat.min (Nat.min (up + 1) (left + 1)) (diag + cost)
    cur :: levGo ca bs (up :: ps) cur
  | _, _, _ => []

def levAux (b : List Char) : List Char → List Nat → Nat → List Nat
  | [], row, _ => row
  | ca :: as, row, i => levAux b as ((i + 1) :: levGo ca b row (i + 1)) (i + 1)

/-- Classic dynamic-programming edit distance (`lev` in the source). -/
def lev (a b : List Char) : Nat :=
  (levAux b a (List.range (b.length + 1)) 0).getLast?.getD 0

def WEEKDAYS : List (List Char) :=
  (["sunday", "monday", "tuesday", "wednesday", "thursday", "friday", "saturday"]).map chars

def WEEKDAY_ABBR : List (List Char × Nat) :=
  [(chars "sun", 0), (chars "sunday", 0),
   (chars "mon", 1), (chars "monday", 1), (chars "mondy", 1), (chars "monady", 1),
   (chars "tue", 2), (chars "tues", 2), (chars "tuesday", 2), (chars "tus", 2),
   (chars "tusday", 2), (chars "tuesay", 2), (chars "teusday", 2),
   (chars "wed", 3), (chars "weds", 3), (chars "wedn", 3), (chars "wednesday", 3),
   (chars "wednsday", 3), (chars "wensday", 3), (chars "wednessday", 3),
   (chars "thu", 4), (chars "thur", 4), (chars "thurs", 4), (chars "thursday", 4),
   (chars "thurday", 4), (chars "thursdayy", 4), (chars "thrsday", 4), (chars "thrs", 4),
   (chars "fri", 5), (chars "friday", 5), (chars "firday", 5), (chars "friyay", 5),
   (chars "sat", 6), (chars "saturday", 6), (chars "saturdy", 6), (chars "saturay", 6)]

def MONTHS_LOWER : List (List Char) :=
  (["january", "february", "march", "april", "may", "june",
    "july", "august", "september", "october", "november", "december"]).map chars

def MONTH_ABBR : List (List Char × Nat) :=
  [(chars "jan", 0), (chars "january", 0), (chars "janury", 0),
   (chars "feb", 1), (chars "febr", 1), (chars "february", 1), (chars "febuary", 1),
   (chars "februrary", 1),
   (chars "mar", 2), (chars "march", 2),
   (chars "apr", 3), (chars "april", 3), (chars "aprl", 3),
   (chars "may", 4),
   (chars "jun", 5), (chars "june", 5),
   (chars "jul", 6), (chars "july", 6),
   (chars "aug", 7), (chars "august", 7), (chars "agust", 7),
   (chars "sep", 8), (chars "sept", 8), (chars "september", 8), (chars "setpember", 8),
   (chars "septermber", 8),
   (chars "oct", 9), (chars "october", 9), (chars "octobr", 9),
   (chars "nov", 10), (chars "november", 10), (chars "novembr", 10),
   (chars "dec", 11), (chars "december", 11), (chars "decemebr", 11)]

def assocLookup (k : List Char) : List (List Char × Nat) → Option Nat
  | [] => none
  | (k', v) :: t => if k' = k then some v else assocLookup k t

/-- `fuzzyWeekday`: exact abbreviation table, else the closest weekday if
    its edit distance is at most 2 (first minimum wins, strict improvement). -/
def fuzzyWeekday (word : List Char) : Option Nat :=
  let w := lowerL word
  match assocLookup w WEEKDAY_ABBR with
  | some i => some i
  | none =>
    let best : Nat × Nat := (WEEKDAYS.enum.foldl
      (fun (acc : Nat × Nat) p =>
        let dist := lev w p.2
        if dist < acc.2 then (p.1, dist) else acc) (0, 1000))
    if best.2 ≤ 2 then some best.1 else none

/-- `fuzzyMonth`: exact table, else the first month that `w` is a prefix of
    or is within edit distance 2 of. -/
def fuzzyMonth (word : List Char) : Option Nat :=
  let w := lowerL word
  match assocLookup w MONTH_ABBR with
  | some i => some i
  | none =>
    (MONTHS_LOWER.enum.find? (fun p => (pfx w p.2).isSome || lev w p.2 ≤ 2)).map (·.1)

/-! ### Guest-count parser (`parseGuests` in `service_parser.ts`). -/

def GUEST_WORDS : List (List Char) :=
  (["people", "persons", "person", "guests", "pax", "pers", "ppl"]).map chars

/-- Expansion of `adults?|kids?|children|child|infants?|bab(?:y|ies)` in the
    alternation order a JS engine explores. -/
def CATEGORY_WORDS : List (List Char) :=
  (["adults", "adult", "kids", "kid", "children", "child",
    "infants", "infant", "baby", "babies"]).map chars

/-- `\bfor\s+\d{1,2}:\d{2}\b` at one position. -/
def mForColon (prev : Option Char) (l : List Char) : Option Unit :=
  if bdry prev l then
    match pfx (chars "for") l with
    | some r1 =>
      match wsPlus r1 with
      | some r2 =>
        dig2K r2 (fun _ r3 =>
          match r3 with
          | ':' :: a :: b :: r5 =>
            if isDigitC a && isDigitC b && bdryW r5 then some () else none
          | _ => none)
      | none => none
    | none => none
  else none

/-- `\bfor\s+\d{1,2}\s*(am|pm)\b` at one position. -/
def mForAmPm (prev : Option Char) (l : List Char) : Option Unit :=
  if bdry prev l then
    match pfx (chars "for") l with
    | some r1 =>
      match wsPlus r1 with
      | some r2 =>
        dig2K r2 (fun _ r3 =>
          (anyWordBd [chars "am", chars "pm"] (wsStar r3)).map (fun _ => ()))
      | none => none
    | none => none
  else none

/-- `^\(?\s*(\d{1,2})\s*\)?$`. -/
def soloNum (l : List Char) : Option Nat :=
  let l1 := match l with | '(' :: t => t | _ => l
  dig2K (wsStar l1) (fun n r =>
    let r2 := wsStar r
    let r3 := match r2 with | ')' :: t => t | _ => r2
    if r3 = [] then some n else none)

/-- `(\d{1,2})\s*CATEGORY` (no word boundaries) at one position. -/
def mCat (l : List Char) : Option (Nat × List Char) :=
  dig2K l (fun n r => (anyWord CATEGORY_WORDS (wsStar r)).map (fun rest => (n, rest)))

/-- Global scan summing all category matches (JS `while(catRe.exec(s))`). -/
def catScan : Nat → List Char → Nat × Bool
  | 0, _ => (0, false)
  | _ + 1, [] => (0, false)
  | fuel + 1, l@(_ :: cs) =>
    match mCat l with
    | some (n, rest) =>
      let acc := catScan fuel rest
      (n + acc.1, true)
    | none => catScan fuel cs

/-- Does `:\d{2}` match here (for the `(?!:\d{2})` lookahead)? -/
def lookColon : List Char → Bool
  | ':' :: a :: b :: _ => isDigitC a && isDigitC b
  | _ => false

/-- Does `\s*(?:am|pm)\b` match here (for the negative lookahead)? -/
def lookAmPm (l : List Char) : Bool :=
  (anyWordBd [chars "am", chars "pm"] (wsStar l)).isSome

/-- `\bparty\s+of\s+(\d{1,2})\b`. -/
def mParty (prev : Option Char) (l : List Char) : Option Nat :=
  if bdry prev l then
    match pfx (chars "party") l with
    | some r1 =>
      match wsPlus r1 with
      | some r2 =>
        match pfx (chars "of") r2 with
        | some r3 =>
          match wsPlus r3 with
          | some r4 => dig2K r4 (fun n r5 => if bdryW r5 then some n else none)
          | none => none
        | none => none
      | none => none
    | none => none
  else none

/-- `\bfor\s+(\d{1,2})(?!:\d{2})(?!\s*(?:am|pm)\b)\b`. -/
def mFor (prev : Option Char) (l : List Char) : Option Nat :=
  if bdry prev l then
    match pfx (chars "for") l with
    | some r1 =>
      match wsPlus r1 with
      | some r2 =>
        dig2K r2 (fun n r3 =>
          if !lookColon r3 && !lookAmPm r3 && bdryW r3 then some n else none)
      | none => none
    | none => none
  else none

/-- `\b(\d{1,2})\s*WORDS\b` for a word alternation. -/
def mNumWord (ws : List (List Char)) (prev : Option Char) (l : List Char) : Option Nat :=
  if bdry prev l then
    dig2K l (fun n r => (anyWordBd ws (wsStar r)).map (fun _ => n))
  else none

/-- `\b(\d{1,2})ppl\b`. -/
def mPpl (prev : Option Char) (l : List Char) : Option Nat :=
  if bdry prev l then
    dig2K l (fun n r =>
      match pfx (chars "ppl") r with
      | some r2 => if bdryW r2 then some n else none
      | none => none)
  else none

/-- `\b(\d{1,2})\s*x\b`. -/
def mNumX (prev : Option Char) (l : List Char) : Option Nat :=
  if bdry prev l then
    dig2K l (fun n r =>
      match wsStar r with
      | 'x' :: r2 => if bdryW r2 then some n else none
      | _ => none)
  else none

/-- `\bx\s*(\d{1,2})\b`. -/
def mXNum (prev : Option Char) (l : List Char) : Option Nat :=
  if bdry prev l then
    match l with
    | 'x' :: r1 => dig2K (wsStar r1) (fun n r2 => if bdryW r2 then some n else none)
    | _ => none
  else none

/-- `\((\d{1,2})\)`. -/
def mParenNum (_prev : Option Char) (l : List Char) : Option Nat :=
  match l with
  | '(' :: r1 =>
    dig2K r1 (fun n r2 => match r2 with | ')' :: _ => some n | _ => none)
  | _ => none

/-- The per-pattern range filter of the source loop: an out-of-range first
    match of one pattern falls through to the next pattern. -/
def boundOk (o : Option Nat) : Option Nat :=
  o.bind (fun n => if 1 ≤ n ∧ n ≤ 50 then some n else none)

/-- `parseGuests` (`service_parser.ts`): guards against time-like "for"
    phrases, then standalone numbers, category sums, and the qualified
    patterns, all range-checked to 1..50. -/
def parseGuests (text : String) : Option Nat :=
  let s := trimL (lowerL (chars text))
  if (scanP mForColon none s).isSome then none
  else if (scanP mForAmPm none s).isSome then none
  else
    match soloNum s with
    | some n => if 1 ≤ n ∧ n ≤ 50 then some n else none
    | none =>
      let cat := catScan s.length s
      if cat.2 && decide (1 ≤ cat.1 ∧ cat.1 ≤ 50) then some cat.1
      else
        firstSome (([
          scanP mParty none s,
          scanP mFor none s,
          scanP (mNumWord GUEST_WORDS) none s,
          scanP mPpl none s,
          scanP mNumX none s,
          scanP mXNum none s,
          scanP mParenNum none s]).map boundOk)

/-! ### Time parsers (`parseTime`, `isAmbiguousTime`, `normalizeTime`,
    `prettyTime`, `isTimeUnclear` in `service_parser.ts`). -/

/-- Generic global `replace(re, ' ')`: leftmost matches (matcher returns the
    rest after the match) become a single space; fueled by input length. -/
def replAll : Nat → (Option Char → List Char → Option (List Char)) →
    Option Char → List Char → List Char
  | 0, _, _, l => l
  | _ + 1, _, _, [] => []
  | fuel + 1, m, prev, l@(c :: cs) =>
    match m prev l with
    | some rest =>
      let consumed := l.take (l.length - rest.length)
      ' ' :: replAll fuel m ((consumed.getLast?).orElse (fun _ => prev)) rest
    | none => c :: replAll fuel m (some c) cs

def replaceAllM (m : Option Char → List Char → Option (List Char))
    (l : List Char) : List Char :=
  replAll l.length m none l

/-- `(@\s*)?` greedy with fallback. -/
def optAt (l : List Char) (k : List Char → Option α) : Option α :=
  match l with
  | '@' :: t => (k (wsStar t)).orElse (fun _ => k l)
  | _ => k l

/-- `(?::|\.|h)?` greedy with fallback. -/
def optSep (l : List Char) (k : List Char → Option α) : Option α :=
  match l with
  | c :: t =>
    if c = ':' ∨ c = '.' ∨ c = 'h' then (k t).orElse (fun _ => k l) else k l
  | [] => k []

def isMin05 (c : Char) : Bool := 48 ≤ c.toNat && c.toNat ≤ 53

/-- `([0-5]\d)?` greedy with fallback. -/
def optMins05 (l : List Char) (k : List Char → Option α) : Option α :=
  match l with
  | a :: b :: t =>
    if isMin05 a && isDigitC b then (k t).orElse (fun _ => k l) else k l
  | _ => k l

/-- `([01]?\d|2[0-3])` with JS alternation/backtracking order. -/
def hour24K (l : List Char) (k : Nat → List Char → Option α) : Option α :=
  match l with
  | a :: t =>
    if a = '0' ∨ a = '1' then
      (match t with
       | b :: t2 =>
         if isDigitC b then
           (k (digitVal a * 10 + digitVal b) t2).orElse (fun _ => k (digitVal a) t)
         else k (digitVal a) t
       | [] => k (digitVal a) [])
    else if isDigitC a then
      (k (digitVal a) t).orElse (fun _ =>
        if a = '2' then
          match t with
          | b :: t2 => if 48 ≤ b.toNat ∧ b.toNat ≤ 51 then k (20 + digitVal b) t2 else none
          | [] => none
        else none)
    else none
  | [] => none

/-- `([01]?\d|2[0-3])` returning the consumed digit characters. -/
def hour24CK (l : List Char) (k : List Char → List Char → Option α) : Option α :=
  match l with
  | a :: t =>
    if a = '0' ∨ a = '1' then
      (match t with
       | b :: t2 =>
         if isDigitC b then (k [a, b] t2).orElse (fun _ => k [a] t)
         else k [a] t
       | [] => k [a] [])
    else if isDigitC a then
      (k [a] t).orElse (fun _ =>
        if a = '2' then
          match t with
          | b :: t2 => if 48 ≤ b.toNat ∧ b.toNat ≤ 51 then k [a, b] t2 else none
          | [] => none
        else none)
    else none
  | [] => none

/-- `:([0-5]\d)\b`, returning the rest. -/
def colonMinsBd : List Char → Option (List Char)
  | ':' :: a :: b :: t => if isMin05 a && isDigitC b && bdryW t then some t else none
  | _ => none

/-- Replace-target `\b(\d{1,2})\s*WORDS\b` (guest / category snippets). -/
def gNumWordM (ws : List (List Char)) (prev : Option Char) (l : List Char) :
    Option (List Char) :=
  if bdry prev l then dig2K l (fun _ r => anyWordBd ws (wsStar r)) else none

/-- `\d{2,4}` greedy with backtracking. -/
def dig24K (l : List Char) (k : List Char → Option α) : Option α :=
  match l with
  | a :: b :: rest2 =>
    if isDigitC a && isDigitC b then
      match rest2 with
      | c :: rest3 =>
        if isDigitC c then
          match rest3 with
          | d :: rest4 =>
            if isDigitC d then
              (k rest4).orElse (fun _ => (k rest3).orElse (fun _ => k rest2))
            else (k rest3).orElse (fun _ => k rest2)
          | [] => (k rest3).orElse (fun _ => k rest2)
        else k rest2
      | [] => k rest2
    else none
  | _ => none

def isDateSep (c : Char) : Bool := c = '/' || c = '-' || c = '.'

/-- Replace-target `\b(\d{1,2})[\/\-\.](\d{1,2})(?:[\/\-\.](\d{2,4}))?\b`. -/
def gNumericDateM (prev : Option Char) (l : List Char) : Option (List Char) :=
  if bdry prev l then
    dig2K l (fun _ r =>
      match r with
      | sep :: r2 =>
        if isDateSep sep then
          dig2K r2 (fun _ r3 =>
            (match r3 with
             | sep2 :: r4 =>
               if isDateSep sep2 then
                 dig24K r4 (fun r5 => if bdryW r5 then some r5 else none)
               else none
             | [] => none).orElse (fun _ => if bdryW r3 then some r3 else none))
        else none
      | [] => none)
  else none

/-- `[a-z]{3,}` greedy run followed by `\b`, returning the rest. -/
def alpha3Bd (l : List Char) : Option (List Char) :=
  let run := l.takeWhile isLowerAlpha
  if 3 ≤ run.length then
    let r := l.drop run.length
    if bdryW r then some r else none
  else none

/-- Replace-target `\b(\d{1,2})\s+[a-z]{3,}\b`. -/
def gNumMonthM (prev : Option Char) (l : List Char) : Option (List Char) :=
  if bdry prev l then
    dig2K l (fun _ r =>
      match wsPlus r with
      | some r2 => alpha3Bd r2
      | none => none)
  else none

/-- Time pattern 1: `\b(@\s*)?(\d{1,2})(?::|\.|h)?([0-5]\d)?\s*(am|pm)\b`. -/
def p1M (prev : Option Char) (l : List Char) : Option (List Char) :=
  if bdry prev l then
    optAt l (fun l2 =>
      dig2K l2 (fun _ r =>
        optSep r (fun r2 =>
          optMins05 r2 (fun r3 =>
            anyWordBd [chars "am", chars "pm"] (wsStar r3)))))
  else none

/-- Time pattern 2: `\b(@\s*)?([01]?\d|2[0-3]):([0-5]\d)\b`. -/
def p2M (prev : Option Char) (l : List Char) : Option (List Char) :=
  if bdry prev l then
    optAt l (fun l2 => hour24K l2 (fun _ r => colonMinsBd r))
  else none

/-- Time pattern 3: `\b(@\s*)?([01]?\d|2[0-3])\.(\d{2})\b`. -/
def p3M (prev : Option Char) (l : List Char) : Option (List Char) :=
  if bdry prev l then
    optAt l (fun l2 => hour24K l2 (fun _ r =>
      match r with
      | '.' :: a :: b :: t => if isDigitC a && isDigitC b && bdryW t then some t else none
      | _ => none))
  else none

/-- Time pattern 4: `\b(@\s*)?([01]?\d|2[0-3])h(\d{2})\b`. -/
def p4M (prev : Option Char) (l : List Char) : Option (List Char) :=
  if bdry prev l then
    optAt l (fun l2 => hour24K l2 (fun _ r =>
      match r with
      | 'h' :: a :: b :: t => if isDigitC a && isDigitC b && bdryW t then some t else none
      | _ => none))
  else none

/-- Time pattern 5: `\b(@\s*)?([01]?\d|2[0-3])\s*o['’]clock\b`. -/
def p5M (prev : Option Char) (l : List Char) : Option (List Char) :=
  if bdry prev l then
    optAt l (fun l2 => hour24K l2 (fun _ r =>
      match wsStar r with
      | 'o' :: q :: rest =>
        if q = '\'' ∨ q = '’' then
          match pfx (chars "clock") rest with
          | some r3 => if bdryW r3 then some r3 else none
          | none => none
        else none
      | _ => none))
  else none

/-- Time pattern 6: `\b(?:at|@)\s*([01]?\d|2[0-3])\b`. -/
def p6M (prev : Option Char) (l : List Char) : Option (List Char) :=
  if bdry prev l then
    (match pfx (chars "at") l with
     | some r => hour24K (wsStar r) (fun _ r2 => if bdryW r2 then some r2 else none)
     | none =>
       match l with
       | '@' :: t => hour24K (wsStar t) (fun _ r2 => if bdryW r2 then some r2 else none)
       | _ => none)
  else none

/-- Time pattern 7: `\b([01]?\d|2[0-3])(?::([0-5]\d))?\b`. -/
def p7M (prev : Option Char) (l : List Char) : Option (List Char) :=
  if bdry prev l then
    hour24K l (fun _ r =>
      (colonMinsBd r).orElse (fun _ => if bdryW r then some r else none))
  else none

/-- Leftmost match of a position matcher, returning the matched text `m[0]`. -/
def scanM (m : Option Char → List Char → Option (List Char)) :
    Option Char → List Char → Option (List Char)
  | prev, [] => (m prev []).map (fun _ => [])
  | prev, l@(c :: cs) =>
    match m prev l with
    | some rest => some (l.take (l.length - rest.length))
    | none => scanM m (some c) cs

/-- `replace(/^@\s*/, '')`. -/
def stripLeadAt (l : List Char) : List Char :=
  match l with
  | '@' :: t => wsStar t
  | _ => l

/-- `replace(/\bat\s*/, '')` (first occurrence only). -/
def replaceFirstAt : Option Char → List Char → List Char
  | _, [] => []
  | prev, l@(c :: cs) =>
    if bdry prev l then
      match pfx (chars "at") l with
      | some r => wsStar r
      | none => c :: replaceFirstAt (some c) cs
    else c :: replaceFirstAt (some c) cs

/-- `.test` of `/\bam|pm\b/` (precedence: `(\bam)|(pm\b)`). -/
def testAmOrPm (l : List Char) : Bool :=
  (scanP (fun prev t =>
    (if bdry prev t then (pfx (chars "am") t).map (fun _ => ()) else none).orElse
      (fun _ =>
        match pfx (chars "pm") t with
        | some r => if bdryW r then some () else none
        | none => none)) none l).isSome

def MORNING_ALTS : List (List (List Char)) :=
  [[chars "morning"], [chars "this", chars "morning"],
   [chars "in", chars "the", chars "morning"], [chars "brunch"], [chars "breakfast"]]

def EVENING_ALTS : List (List (List Char)) :=
  [[chars "evening"], [chars "this", chars "evening"], [chars "tonight"], [chars "dinner"]]

def AFTERNOON_ALTS : List (List (List Char)) :=
  [[chars "afternoon"], [chars "this", chars "afternoon"], [chars "lunch"]]

/-- `parseTime` (`service_parser.ts`): noon/midnight words, then the seven
    time patterns over the text with guest/category/date snippets blanked
    out, with daypart disambiguation appended when no am/pm is present. -/
def parseTime (text : String) : Option String :=
  let s := trimL (lowerL (chars text))
  if hasSeqAlt [[chars "noon"], [chars "midday"]] s then some "12:00 pm"
  else if hasSeqAlt [[chars "midnight"]] s then some "00:00"
  else
    let safe := replaceAllM (gNumWordM GUEST_WORDS) s
    let safe := replaceAllM (gNumWordM CATEGORY_WORDS) safe
    let safe := replaceAllM gNumericDateM safe
    let safe := replaceAllM gNumMonthM safe
    match firstSome
      [scanM p1M none safe, scanM p2M none safe, scanM p3M none safe,
       scanM p4M none safe, scanM p5M none safe, scanM p6M none safe,
       scanM p7M none safe] with
    | some m0 =>
      let out := trimL (replaceFirstAt none (stripLeadAt (trimL m0)))
      let out :=
        if testAmOrPm out then out
        else if hasSeqAlt MORNING_ALTS s then out ++ chars " am"
        else if hasSeqAlt EVENING_ALTS s || hasSeqAlt AFTERNOON_ALTS s then out ++ chars " pm"
        else out
      some (ofChars out)
    | none => none

/-- `^(\d{1,2})(?::(\d{2}))?$`. -/
def bareHourMatch (l : List Char) : Option Nat :=
  dig2K l (fun h r =>
    (match r with
     | ':' :: a :: b :: t =>
       if isDigitC a && isDigitC b && t.isEmpty then some h else none
     | _ => none).orElse (fun _ => if r.isEmpty then some h else none))

/-- `isAmbiguousTime`: a bare 1–12 hour (optionally with minutes) with no
    am/pm and no noon/midday/midnight word. -/
def isAmbiguousTime (raw : String) : Bool :=
  let cleaned := replaceFirstAt none (stripLeadAt (lowerL (trimL (chars raw))))
  if hasSeqAlt [[chars "noon"], [chars "midday"], [chars "midnight"]] cleaned then false
  else if testAmOrPm cleaned then false
  else
    match bareHourMatch cleaned with
    | some h => decide (1 ≤ h ∧ h ≤ 12)
    | none => false

def pad2S (n : Nat) : String := if n < 10 then "0" ++ toString n else toString n

/-- `([1-9]|1[0-2])` with JS alternation order (one digit first). -/
def hour12K (l : List Char) (k : Nat → List Char → Option α) : Option α :=
  match l with
  | a :: t =>
    (if 49 ≤ a.toNat ∧ a.toNat ≤ 57 then k (digitVal a) t else none).orElse (fun _ =>
      if a = '1' then
        match t with
        | b :: t2 => if 48 ≤ b.toNat ∧ b.toNat ≤ 50 then k (10 + digitVal b) t2 else none
        | [] => none
      else none)
  | [] => none

/-- `(?:[:\.h]?([0-5]\d))?` returning the two minute characters when taken. -/
def optSepMins (l : List Char) (k : Option (List Char) → List Char → Option α) : Option α :=
  let mins2 : List Char → Option α := fun r =>
    match r with
    | a :: b :: t => if isMin05 a && isDigitC b then k (some [a, b]) t else none
    | _ => none
  let inner : Option α :=
    match l with
    | c :: t =>
      if c = ':' ∨ c = '.' ∨ c = 'h' then (mins2 t).orElse (fun _ => mins2 l)
      else mins2 l
    | [] => none
  inner.orElse (fun _ => k none l)

/-- `\s?` greedy with fallback. -/
def optWs1 (l : List Char) (k : List Char → Option α) : Option α :=
  match l with
  | c :: t => if isWs c then (k t).orElse (fun _ => k l) else k l
  | [] => k []

/-- `normalizeTime` pattern `\b([1-9]|1[0-2])(?:[:\.h]?([0-5]\d))?\s?(am|pm)\b`,
    returning hour, optional minute chars, and whether pm. -/
def n1M (prev : Option Char) (l : List Char) : Option (Nat × Option (List Char) × Bool) :=
  if bdry prev l then
    hour12K l (fun h r =>
      optSepMins r (fun mins r2 =>
        optWs1 r2 (fun r3 =>
          match wordBd (chars "am") r3 with
          | some _ => some (h, mins, false)
          | none =>
            match wordBd (chars "pm") r3 with
            | some _ => some (h, mins, true)
            | none => none)))
  else none

/-- `\b([01]?\d|2[0-3]):([0-5]\d)\b` with captures. -/
def n2M (prev : Option Char) (l : List Char) : Option (List Char × List Char) :=
  if bdry prev l then
    hour24CK l (fun hs r =>
      match r with
      | ':' :: a :: b :: t =>
        if isMin05 a && isDigitC b && bdryW t then some (hs, [a, b]) else none
      | _ => none)
  else none

/-- `\b([01]?\d|2[0-3])[\.h]([0-5]\d)\b` with captures. -/
def n3M (prev : Option Char) (l : List Char) : Option (List Char × List Char) :=
  if bdry prev l then
    hour24CK l (fun hs r =>
      match r with
      | c :: a :: b :: t =>
        if (c = '.' ∨ c = 'h') && isMin05 a && isDigitC b && bdryW t then
          some (hs, [a, b])
        else none
      | _ => none)
  else none

def padStart2 (l : List Char) : List Char := if l.length < 2 then '0' :: l else l

/-- `normalizeTime` (`service_parser.ts`): canonical `HH:MM`, or `none` to
    leave an ambiguous bare hour for the clarifier. -/
def normalizeTime (text : String) : Option String :=
  if text = "" then none
  else
    let s := replaceFirstAt none (stripLeadAt (lowerL (trimL (chars text))))
    if hasSeqAlt [[chars "noon"], [chars "midday"]] s then some "12:00"
    else if hasSeqAlt [[chars "midnight"]] s then some "00:00"
    else
      match scanP n1M none s with
      | some (h, mins, isPm) =>
        let minsS := (mins.map ofChars).getD "00"
        let h := if isPm ∧ h ≠ 12 then h + 12 else h
        let h := if !isPm ∧ h = 12 then 0 else h
        some (pad2S h ++ ":" ++ minsS)
      | none =>
        match scanP n2M none s with
        | some (hs, ms) => some (ofChars (padStart2 hs) ++ ":" ++ ofChars ms)
        | none =>
          match scanP n3M none s with
          | some (hs, ms) => some (ofChars (padStart2 hs) ++ ":" ++ ofChars ms)
          | none => none

/-- `^(\d{1,2})(?::|\.|h)?(\d{2})?\s*(am|pm)$` (anchored, for `prettyTime`). -/
def prettyAmPmMatch (l : List Char) : Option (Nat × Option (List Char) × Bool) :=
  dig2K l (fun h r =>
    optSep r (fun r2 =>
      let withMins : Option (Nat × Option (List Char) × Bool) :=
        match r2 with
        | a :: b :: t =>
          if isDigitC a && isDigitC b then
            let r3 := wsStar t
            match pfx (chars "am") r3 with
            | some rest => if rest.isEmpty then some (h, some [a, b], false) else none
            | none =>
              match pfx (chars "pm") r3 with
              | some rest => if rest.isEmpty then some (h, some [a, b], true) else none
              | none => none
          else none
        | _ => none
      withMins.orElse (fun _ =>
        let r3 := wsStar r2
        match pfx (chars "am") r3 with
        | some rest => if rest.isEmpty then some (h, none, false) else none
        | none =>
          match pfx (chars "pm") r3 with
          | some rest => if rest.isEmpty then some (h, none, true) else none
          | none => none)))

/-- `^(\d{1,2})(?::|\.|h)?(\d{2})?$` (anchored, for `prettyTime`). -/
def prettyBareMatch (l : List Char) : Option (Nat × Option (List Char)) :=
  dig2K l (fun h r =>
    optSep r (fun r2 =>
      let withMins : Option (Nat × Option (List Char)) :=
        match r2 with
        | a :: b :: t =>
          if isDigitC a && isDigitC b && t.isEmpty then some (h, some [a, b]) else none
        | _ => none
      withMins.orElse (fun _ => if r2.isEmpty then some (h, none) else none)))

/-- `prettyTime` (`service_parser.ts`): pretty-print to 12h with am/pm; a
    bare 1–12 hour stays without an am/pm suffix; unrecognized input is
    returned unchanged. -/
def prettyTime (raw : String) : String :=
  let s := replaceFirstAt none (stripLeadAt (lowerL (trimL (chars raw))))
  if hasSeqAlt [[chars "noon"], [chars "midday"]] s then "12:00 pm"
  else if hasSeqAlt [[chars "midnight"]] s then "12:00 am"
  else
    match prettyAmPmMatch s with
    | some (h, mins, isPm) =>
      let minsS := (mins.map ofChars).getD "00"
      let ap := if isPm then "pm" else "am"
      let h := if h = 0 then 12 else h
      let h := if h > 12 then h % 12 else h
      toString h ++ ":" ++ minsS ++ " " ++ ap
    | none =>
      match prettyBareMatch s with
      | some (h, mins) =>
        let minsS := (mins.map ofChars).getD "00"
        if h = 0 then "12:" ++ minsS ++ " am"
        else if h = 12 then "12:" ++ minsS ++ " pm"
        else if h > 12 then toString (h - 12) ++ ":" ++ minsS ++ " pm"
        else toString h ++ ":" ++ minsS
      | none => raw

/-- `isTimeUnclear` (`service_parser.ts`). -/
def isTimeUnclear (text : String) : Bool :=
  match parseTime text with
  | none => true
  | some raw => isAmbiguousTime raw

/-! ### Date parsers (`parseDate`, `normalizeDateToISO`, `prettyDate`,
    `isDateUnclear` in `service_parser.ts`).

    JavaScript `Date` arithmetic (today, add-days, next-weekday, month
    formatting, ISO printing) is external library behaviour; it is
    abstracted as a `DateEnv` of the formatting operations used.  The
    matching logic below is the faithful part: every branch's guard is
    embedded exactly, and only the *value* returned on success comes from
    the environment. -/

structure DateEnv where
  /-- `fmtDate(today())`. -/
  todayDisp : String
  /-- `fmtDate(addDays(today(), 1))`. -/
  tomorrowDisp : String
  /-- `fmtDate(nextWeekday(i))`. -/
  weekdayDisp : Nat → String
  /-- `fmtDate(nextWeekdayStrict(i))`. -/
  weekdayStrictDisp : Nat → String
  /-- `fmtDate(new Date(year, mm-1, dd))`; `year = none` means current year. -/
  dmyDisp : Nat → Nat → Option Nat → String
  /-- `fmtDate(new Date(currentYear, monIdx, dd))`. -/
  dMonthDisp : Nat → Nat → String
  /-- `today().toISOString().slice(0,10)`. -/
  todayISO : String
  /-- `addDays(today(),1).toISOString().slice(0,10)`. -/
  tomorrowISO : String
  /-- `new Date(y, mo-1, dd).toISOString().slice(0,10)`. -/
  mkISO : Nat → Nat → Nat → String
  /-- `new Date(y, mm-1, dd)` for `D/M[/Y]`; `year = none` means base year. -/
  dmyISO : Nat → Nat → Option Nat → String
  /-- `new Date(baseYear, monIdx, dd).toISOString().slice(0,10)`. -/
  dMonthISO : Nat → Nat → String
  /-- `nextWeekdayISO(WEEKDAYS[i], base)`. -/
  weekdayISO : Nat → String
  /-- `nextWeekdayStrict(i).toISOString().slice(0,10)`. -/
  weekdayStrictISO : Nat → String
  /-- `fmtDate` applied to an explicit ISO `y-m-d` (used by `prettyDate`). -/
  isoDisp : Nat → Nat → Nat → String

/-- The nine tomorrow synonyms (`TOMORROW_WORDS`). -/
def TOMORROW_WORDS : List (List Char) :=
  (["tomorrow", "tmrw", "tmr", "tomo", "tommorow", "tomorow", "tomoroww",
    "tommorrow", "tmrrw"]).map chars

/-- `hasAnyWord(s, TOMORROW_WORDS)` — each word tested as `\bw\b`. -/
def hasTomorrowWord (l : List Char) : Bool :=
  TOMORROW_WORDS.any (fun w => hasWordL w l)

/-- The weekday alternation
    `mon|tue|tues|wed|thu|thur|thurs|fri|sat|sun|monday|…|sunday`
    in source order. -/
def WD_ALT : List (List Char) :=
  (["mon", "tue", "tues", "wed", "thu", "thur", "thurs", "fri", "sat", "sun",
    "monday", "tuesday", "wednesday", "thursday", "friday", "saturday",
    "sunday"]).map chars

/-- `\bnext\s+(WD_ALT)\b`, capturing the weekday word. -/
def mNextWd (prev : Option Char) (l : List Char) : Option (List Char) :=
  if bdry prev l then
    match pfx (chars "next") l with
    | some r =>
      match wsPlus r with
      | some r2 => anyWordBdCap WD_ALT r2
      | none => none
    | none => none
  else none

/-- Ordered alternation followed by a continuation, returning the word. -/
def anyAltThen (ws : List (List Char)) (cont : List Char → Option Unit)
    (l : List Char) : Option (List Char) :=
  match ws with
  | [] => none
  | w :: t =>
    (match pfx w l with
     | some r => (cont r).map (fun _ => w)
     | none => none).orElse (fun _ => anyAltThen t cont l)

/-- `\b(WD_ALT)\s+next\s+week\b`, capturing the weekday word. -/
def mWdNextWeek (prev : Option Char) (l : List Char) : Option (List Char) :=
  if bdry prev l then
    anyAltThen WD_ALT (fun r =>
      match wsPlus r with
      | some r2 =>
        match pfx (chars "next") r2 with
        | some r3 =>
          match wsPlus r3 with
          | some r4 => (wordBd (chars "week") r4).map (fun _ => ())
          | none => none
        | none => none
      | none => none) l
  else none

/-- `\bnext\s+week\s+(WD_ALT)\b`, capturing the weekday word. -/
def mNextWeekWd (prev : Option Char) (l : List Char) : Option (List Char) :=
  if bdry prev l then
    match pfx (chars "next") l with
    | some r =>
      match wsPlus r with
      | some r2 =>
        match pfx (chars "week") r2 with
        | some r3 =>
          match wsPlus r3 with
          | some r4 => anyWordBdCap WD_ALT r4
          | none => none
        | none => none
      | none => none
    | none => none
  else none

/-- `\b([a-z]{3,})\b`, capturing the first such word. -/
def mAlpha3 (prev : Option Char) (l : List Char) : Option (List Char) :=
  if bdry prev l then
    let run := l.takeWhile isLowerAlpha
    if 3 ≤ run.length ∧ bdryW (l.drop run.length) then some run else none
  else none

/-- `\b(\d{1,2})[\/\-\.](\d{1,2})(?:[\/\-\.](\d{2,4}))?\b` with captures. -/
def mNumericDate (prev : Option Char) (l : List Char) :
    Option (Nat × Nat × Option Nat) :=
  if bdry prev l then
    dig2K l (fun dd r =>
      match r with
      | sep :: r2 =>
        if isDateSep sep then
          dig2K r2 (fun mm r3 =>
            (match r3 with
             | sep2 :: r4 =>
               if isDateSep sep2 then
                 dig24K' r4 (fun y r5 => if bdryW r5 then some (dd, mm, some y) else none)
               else none
             | [] => none).orElse (fun _ =>
              if bdryW r3 then some (dd, mm, none) else none))
        else none
      | [] => none)
  else none
where
  /-- `(\d{2,4})` greedy with backtracking, returning the value. -/
  dig24K' {α : Type} (l : List Char) (k : Nat → List Char → Option α) : Option α :=
    match l with
    | a :: b :: rest2 =>
      if isDigitC a && isDigitC b then
        let v2 := digitVal a * 10 + digitVal b
        match rest2 with
        | c :: rest3 =>
          if isDigitC c then
            let v3 := v2 * 10 + digitVal c
            match rest3 with
            | d :: rest4 =>
              if isDigitC d then
                (k (v3 * 10 + digitVal d) rest4).orElse (fun _ =>
                  (k v3 rest3).orElse (fun _ => k v2 rest2))
              else (k v3 rest3).orElse (fun _ => k v2 rest2)
            | [] => (k v3 rest3).orElse (fun _ => k v2 rest2)
          else k v2 rest2
        | [] => k v2 rest2
      else none
    | _ => none

/-- `\b(\d{1,2})\s*([a-z]{3,})\b`, capturing day and word. -/
def mDayMonth (prev : Option Char) (l : List Char) : Option (Nat × List Char) :=
  if bdry prev l then
    dig2K l (fun dd r =>
      let r2 := wsStar r
      let run := r2.takeWhile isLowerAlpha
      if 3 ≤ run.length ∧ bdryW (r2.drop run.length) then some (dd, run) else none)
  else none

/-- The year normalization `m[3] < 100 ? 2000 + m[3] : m[3]`. -/
def normYear : Option Nat → Option Nat
  | none => none
  | some y => some (if y < 100 then 2000 + y else y)

/-- `parseDate` (`service_parser.ts`): casual phrases to a display string.
    Branch order matches the source; date arithmetic comes from `env`. -/
def parseDate (env : DateEnv) (text : String) : Option String :=
  let s := lowerL (trimL (chars text))
  if hasWordL (chars "today") s || hasWordL (chars "tonight") s ||
     hasSeqAlt [[chars "this", chars "morning"], [chars "this", chars "afternoon"],
                [chars "this", chars "evening"]] s then
    some env.todayDisp
  else if hasTomorrowWord s then some env.tomorrowDisp
  else
    match scanP mNextWd none s with
    | some w =>
      match fuzzyWeekday w with
      | some idx => some (env.weekdayStrictDisp idx)
      | none => parseDateRest env s
    | none =>
      match scanP mWdNextWeek none s with
      | some w =>
        match fuzzyWeekday w with
        | some idx => some (env.weekdayStrictDisp idx)
        | none => parseDateRest env s
      | none =>
        match scanP mNextWeekWd none s with
        | some w =>
          match fuzzyWeekday w with
          | some idx => some (env.weekdayStrictDisp idx)
          | none => parseDateRest env s
        | none => parseDateRest env s
where
  /-- The weekday-word, numeric and `D month` branches shared by the three
      fall-through paths above. -/
  parseDateRest (env : DateEnv) (s : List Char) : Option String :=
    let afterWd : Option String :=
      match scanP mAlpha3 none s with
      | some w =>
        match assocLookup w WEEKDAY_ABBR with
        | some idx => some (env.weekdayDisp idx)
        | none =>
          match fuzzyWeekday w with
          | some idx => some (env.weekdayDisp idx)
          | none => none
      | none => none
    match afterWd with
    | some r => some r
    | none =>
      let numeric : Option String :=
        match scanP mNumericDate none s with
        | some (dd, mm, my) =>
          if 1 ≤ dd ∧ dd ≤ 31 ∧ 1 ≤ mm ∧ mm ≤ 12 then
            some (env.dmyDisp dd mm (normYear my))
          else none
        | none => none
      match numeric with
      | some r => some r
      | none =>
        match scanP mDayMonth none s with
        | some (dd, w) =>
          match fuzzyMonth w with
          | some monIdx => if 1 ≤ dd ∧ dd ≤ 31 then some (env.dMonthDisp dd monIdx) else none
          | none => none
        | none => none

/-- `\b(20\d{2})-(0?[1-9]|1[0-2])-(0?[1-9]|[12]\d|3[01])\b` with captures. -/
def mIsoDate (prev : Option Char) (l : List Char) : Option (Nat × Nat × Nat) :=
  if bdry prev l then
    match l with
    | '2' :: '0' :: a :: b :: '-' :: r =>
      if isDigitC a && isDigitC b then
        let y := 2000 + digitVal a * 10 + digitVal b
        moK r (fun mo r2 =>
          match r2 with
          | '-' :: r3 => ddK r3 (fun dd r4 => if bdryW r4 then some (y, mo, dd) else none)
          | _ => none)
      else none
    | _ => none
  else none
where
  /-- `(0?[1-9]|1[0-2])` with JS alternation order. -/
  moK {α : Type} (l : List Char) (k : Nat → List Char → Option α) : Option α :=
    (match l with
     | '0' :: b :: t => if 49 ≤ b.toNat ∧ b.toNat ≤ 57 then k (digitVal b) t else none
     | _ => none).orElse (fun _ =>
      match l with
      | b :: t =>
        (if 49 ≤ b.toNat ∧ b.toNat ≤ 57 then k (digitVal b) t else none).orElse (fun _ =>
          if b = '1' then
            match t with
            | c :: t2 => if 48 ≤ c.toNat ∧ c.toNat ≤ 50 then k (10 + digitVal c) t2 else none
            | [] => none
          else none)
      | [] => none)
  /-- `(0?[1-9]|[12]\d|3[01])` with JS alternation order. -/
  ddK {α : Type} (l : List Char) (k : Nat → List Char → Option α) : Option α :=
    (match l with
     | '0' :: b :: t => if 49 ≤ b.toNat ∧ b.toNat ≤ 57 then k (digitVal b) t else none
     | _ => none).orElse (fun _ =>
      match l with
      | b :: t =>
        (if 49 ≤ b.toNat ∧ b.toNat ≤ 57 then k (digitVal b) t else none).orElse (fun _ =>
          (if (b = '1' ∨ b = '2') then
            match t with
            | c :: t2 => if isDigitC c then k (digitVal b * 10 + digitVal c) t2 else none
            | [] => none
          else none).orElse (fun _ =>
            if b = '3' then
              match t with
              | c :: t2 => if 48 ≤ c.toNat ∧ c.toNat ≤ 49 then k (30 + digitVal c) t2 else none
              | [] => none
            else none))
      | [] => none)

/-- `normalizeDateToISO` (`service_parser.ts`): ISO `YYYY-MM-DD`, branch
    order as in the source (note it differs from `parseDate`). -/
def normalizeDateToISO (env : DateEnv) (text : String) : Option String :=
  if text = "" then none
  else
    let s := lowerL (trimL (chars text))
    if hasWordL (chars "today") s || hasWordL (chars "tonight") s ||
       hasSeqAlt [[chars "this", chars "morning"], [chars "this", chars "afternoon"],
                  [chars "this", chars "evening"]] s then
      some env.todayISO
    else if hasTomorrowWord s then some env.tomorrowISO
    else
      let isoLit : Option String :=
        (scanP mIsoDate none s).map (fun p => env.mkISO p.1 p.2.1 p.2.2)
      match isoLit with
      | some r => some r
      | none =>
        let numeric : Option String :=
          match scanP mNumericDate none s with
          | some (dd, mm, my) => some (env.dmyISO dd mm (normYear my))
          | none => none
        match numeric with
        | some r => some r
        | none =>
          let dMonth : Option String :=
            match scanP mDayMonth none s with
            | some (dd, w) =>
              match fuzzyMonth w with
              | some monIdx =>
                if 1 ≤ dd ∧ dd ≤ 31 then some (env.dMonthISO dd monIdx) else none
              | none => none
            | none => none
          match dMonth with
          | some r => some r
          | none =>
            match scanP mNextWd none s with
            | some w =>
              match fuzzyWeekday w with
              | some idx => some (env.weekdayStrictISO idx)
              | none => isoWdRest env s
            | none =>
              match scanP mWdNextWeek none s with
              | some w =>
                match fuzzyWeekday w with
                | some idx => some (env.weekdayStrictISO idx)
                | none => isoWdRest env s
              | none =>
                match scanP mNextWeekWd none s with
                | some w =>
                  match fuzzyWeekday w with
                  | some idx => some (env.weekdayStrictISO idx)
                  | none => isoWdRest env s
                | none => isoWdRest env s
where
  isoWdRest (env : DateEnv) (s : List Char) : Option String :=
    match scanP mAlpha3 none s with
    | some w =>
      match assocLookup w WEEKDAY_ABBR with
      | some idx => some (env.weekdayISO idx)
      | none =>
        match fuzzyWeekday w with
        | some idx => some (env.weekdayISO idx)
        | none => none
    | none => none

/-- `^\d{4}-\d{2}-\d{2}$` with the numeric fields. -/
def isoShape (l : List Char) : Option (Nat × Nat × Nat) :=
  match l with
  | [a, b, c, d, '-', e, f, '-', g, h] =>
    if [a, b, c, d, e, f, g, h].all isDigitC then
      some (digitVal a * 1000 + digitVal b * 100 + digitVal c * 10 + digitVal d,
            digitVal e * 10 + digitVal f,
            digitVal g * 10 + digitVal h)
    else none
  | _ => none

/-- `prettyDate` (`service_parser.ts`). -/
def prettyDate (env : DateEnv) (input : String) : String :=
  if input = "" then input
  else
    let s := trimL (chars input)
    match isoShape s with
    | some (y, m, d) => env.isoDisp y m d
    | none => (parseDate env (ofChars s)).getD input

/-- `isDateUnclear` (`service_parser.ts`). -/
def isDateUnclear (env : DateEnv) (text : String) : Bool :=
  if text = "" then true
  else
    let s := trimL (chars text)
    if (isoShape s).isSome then false
    else (parseDate env (ofChars s)).isNone

/-! ### Name parser (`parseName`, `cleanPoliteness`, `looksLikeName`,
    `isDateLike`, `isTimeOrGuestLike` in `service_parser.ts`). -/

/-- First character class `[A-Za-zÀ-ÿ]`. -/
def nameCls (c : Char) : Bool :=
  isLowerAlpha c || isUpperAlpha c || (192 ≤ c.toNat && c.toNat ≤ 255)

/-- Continuation class `[A-Za-zÀ-ÿ' -]`. -/
def nameCls2 (c : Char) : Bool := nameCls c || c = '\'' || c = ' ' || c = '-'

/-- Greedy capture `([A-Za-zÀ-ÿ][A-Za-zÀ-ÿ' -]{1,})` with backtracking over
    its length, handing each candidate (longest first) to the continuation. -/
def capNameK (l : List Char) (k : List Char → List Char → Option α) : Option α :=
  match l with
  | c :: t =>
    if nameCls c then
      let run := t.takeWhile nameCls2
      tryLen c run t run.length k
    else none
  | [] => none
where
  tryLen (c : Char) (run t : List Char) : Nat → (List Char → List Char → Option α) → Option α
    | 0, _ => none
    | j + 1, k =>
      (k (c :: run.take (j + 1)) (t.drop (j + 1))).orElse (fun _ => tryLen c run t j k)

/-- `replace(/\b(please|pls|plz|thank\s*you|thanks)\b/gi, '')`. -/
def stripPoliteness (l : List Char) : List Char :=
  go l.length none l
where
  matchOne (prev : Option Char) (t : List Char) : Option (List Char) :=
    if bdry prev t then
      firstSome
        [wordBdCi (chars "please") t, wordBdCi (chars "pls") t, wordBdCi (chars "plz") t,
         thankYou t, wordBdCi (chars "thanks") t]
    else none
  wordBdCi (w : List Char) (t : List Char) : Option (List Char) :=
    match ciPfx w t with
    | some r => if bdryW r then some r else none
    | none => none
  thankYou (t : List Char) : Option (List Char) :=
    match ciPfx (chars "thank") t with
    | some r =>
      match ciPfx (chars "you") (wsStar r) with
      | some r2 => if bdryW r2 then some r2 else none
      | none => none
    | none => none
  go : Nat → Option Char → List Char → List Char
    | 0, _, l => l
    | _ + 1, _, [] => []
    | fuel + 1, prev, l@(c :: cs) =>
      match matchOne prev l with
      | some rest =>
        let consumed := l.take (l.length - rest.length)
        go fuel ((consumed.getLast?).orElse (fun _ => prev)) rest
      | none => c :: go fuel (some c) cs

/-- The edge class `[,\-–—.\s]`. -/
def edgeCls (c : Char) : Bool := c = ',' || c = '-' || c = '–' || c = '—' || c = '.' || isWs c

/-- `replace(/\s+/g, ' ')` (state tracks whether we are inside a run). -/
def collapseWsGo : Bool → List Char → List Char
  | _, [] => []
  | inWs, c :: t =>
    if isWs c then
      if inWs then collapseWsGo true t else ' ' :: collapseWsGo true t
    else c :: collapseWsGo false t

def collapseWs (l : List Char) : List Char := collapseWsGo false l

/-- `cleanPoliteness` (`service_parser.ts`). -/
def cleanPoliteness (n : List Char) : List Char :=
  let n := stripPoliteness n
  let n := (((n.dropWhile edgeCls).reverse.dropWhile edgeCls).reverse)
  let n := collapseWs n
  trimL n

/-- `looksLikeName`: `^[A-Za-zÀ-ÿ][A-Za-zÀ-ÿ' -]{1,}$`. -/
def looksLikeName (n : List Char) : Bool :=
  match n with
  | c :: t => nameCls c && !t.isEmpty && t.all nameCls2
  | [] => false

def WEEKDAY_WORDS_SET : List (List Char) := WEEKDAYS

def MONTH_WORDS_SET : List (List Char) := MONTHS_LOWER

/-- `isDateLike` (`service_parser.ts`). -/
def isDateLike (s : List Char) : Bool :=
  let t := trimL (lowerL s)
  WEEKDAY_WORDS_SET.any (fun w => t = w) ||
  MONTH_WORDS_SET.any (fun w => t = w) ||
  hasSeqAlt [[chars "today"], [chars "tomorrow"], [chars "tonight"]] t ||
  hasNextThis t ||
  (scanP (fun p l => (mNumericDate p l).map (fun _ => ())) none t).isSome ||
  (scanP (fun p l =>
    if bdry p l then
      dig2K l (fun _ r =>
        match wsPlus r with
        | some r2 => (alpha3Bd r2).map (fun _ => ())
        | none => none)
    else none) none t).isSome
where
  /-- `\b(next|this)\s+(week|weekend|WD_ALT)\b`. -/
  hasNextThis (t : List Char) : Bool :=
    (scanP (fun prev l =>
      if bdry prev l then
        match (pfx (chars "next") l).orElse (fun _ => pfx (chars "this") l) with
        | some r =>
          match wsPlus r with
          | some r2 =>
            (anyWordBd ((["week", "weekend"]).map chars ++ WD_ALT) r2).map (fun _ => ())
          | none => none
        | none => none
      else none) none t).isSome

/-- `isTimeOrGuestLike` (`service_parser.ts`). -/
def isTimeOrGuestLike (s : List Char) : Bool :=
  let t := lowerL s
  hasSeqAlt [[chars "am"], [chars "pm"], [chars "noon"], [chars "midday"],
             [chars "midnight"]] t ||
  (scanP (fun prev l =>
    if bdry prev l then
      hour24K l (fun _ r =>
        match r with
        | c :: a :: b :: rest =>
          if (c = ':' ∨ c = '.' ∨ c = 'h') && isMin05 a && isDigitC b && bdryW rest then
            some ()
          else none
        | _ => none)
    else none) none t).isSome ||
  (scanP (fun prev l =>
    if bdry prev l then (anyWordBd GUEST_WORDS l).map (fun _ => ()) else none) none t).isSome ||
  (scanP (fun prev l =>
    if bdry prev l then (anyWordBd CATEGORY_WORDS l).map (fun _ => ()) else none) none t).isSome ||
  (scanP (fun prev l =>
    if bdry prev l then
      let run := l.takeWhile isDigitC
      if 1 ≤ run.length ∧ bdryW (l.drop run.length) then some () else none
    else none) none t).isSome

/-- Terminator `(?:[.!?,\s]|$)` of the guarded `for <Name>` pattern. -/
def forTerminator : List Char → Bool
  | [] => true
  | c :: _ => c = '.' || c = '!' || c = '?' || c = ',' || isWs c

/-- `parseName` (`service_parser.ts`): explicit cues, a guarded
    `for <Name>`, then a bare short message with no booking vocabulary. -/
def parseName (text : String) : Option String :=
  let s := trimL (chars text)
  let tryPattern : Option (List Char) → Option (List Char) := fun cap =>
    cap.bind (fun c =>
      let cand := cleanPoliteness c
      if looksLikeName cand then some cand else none)
  let underCap : Option (List Char) :=
    scanP (fun prev l =>
      if bdry prev l then
        match ciPfx (chars "under") l with
        | some r =>
          match wsPlus r with
          | some r2 =>
            -- `(?:the\s+name\s+)?` greedy, with group-level backtracking
            let r3 : Option (List Char) :=
              match ciPfx (chars "the") r2 with
              | some ra =>
                match wsPlus ra with
                | some rb =>
                  match ciPfx (chars "name") rb with
                  | some rc => wsPlus rc
                  | none => none
                | none => none
              | none => none
            let capAt := fun t =>
              capNameK t (fun cap rest => if bdry (cap.getLast?) rest then some cap else none)
            (r3.bind capAt).orElse (fun _ => capAt r2)
          | none => none
        | none => none
      else none) none s
  let nameCap : Option (List Char) :=
    scanP (fun prev l =>
      if bdry prev l then
        match ciPfx (chars "name") l with
        | some r =>
          match wsPlus r with
          | some r2 =>
            -- `(?:is\s+)?` greedy, with group-level backtracking
            let r3 : Option (List Char) :=
              match ciPfx (chars "is") r2 with
              | some ra => wsPlus ra
              | none => none
            let capAt := fun t =>
              capNameK t (fun cap rest => if bdry (cap.getLast?) rest then some cap else none)
            (r3.bind capAt).orElse (fun _ => capAt r2)
          | none => none
        | none => none
      else none) none s
  let politeCap : Option (List Char) :=
    capNameK s (fun cap rest =>
      match wsPlus rest with
      | some r2 =>
        match firstSome
          [politeWordBd (chars "please") r2, politeWordBd (chars "pls") r2,
           politeWordBd (chars "plz") r2, politeThanks r2,
           politeThankYou r2] with
        | some _ => some cap
        | none => none
      | none => none)
  match firstSome [tryPattern underCap, tryPattern nameCap, tryPattern politeCap] with
  | some cand => some (ofChars cand)
  | none =>
    let forCap : Option (List Char) :=
      scanP (fun prev l =>
        if bdry prev l then
          match ciPfx (chars "for") l with
          | some r =>
            match wsPlus r with
            | some r2 => capNameK r2 (fun cap rest =>
                if forTerminator rest then some cap else none)
            | none => none
          | none => none
        else none) none s
    let fromFor : Option (List Char) :=
      forCap.bind (fun c =>
        let cand := cleanPoliteness c
        if looksLikeName cand && !isDateLike cand && !isTimeOrGuestLike cand then
          some cand
        else none)
    match fromFor with
    | some cand => some (ofChars cand)
    | none =>
      if !sentencey s then
        let cand := cleanPoliteness s
        if looksLikeName cand && !isDateLike cand && !isTimeOrGuestLike cand then
          some (ofChars cand)
        else none
      else none
where
  politeWordBd (w : List Char) (t : List Char) : Option Unit :=
    match ciPfx w t with
    | some r => if bdryW r then some () else none
    | none => none
  politeThanks (t : List Char) : Option Unit := politeWordBd (chars "thanks") t
  politeThankYou (t : List Char) : Option Unit :=
    match ciPfx (chars "thank") t with
    | some r =>
      match ciPfx (chars "you") (wsStar r) with
      | some r2 => if bdryW r2 then some () else none
      | none => none
    | none => none
  /-- The sentence test `(?:\b(book|reserve|…|adults)\b|\d)` (case-insensitive). -/
  sentencey (s : List Char) : Bool :=
    let t := lowerL s
    hasSeqAlt ((["book", "reserve", "table", "tomorrow", "today", "tonight",
      "morning", "afternoon", "evening", "lunch", "dinner", "breakfast",
      "am", "pm", "people", "guests", "pax", "kids", "adults"]).map
        (fun w => [chars w])) t ||
    s.any isDigitC

/-! ### Dialog engine (`service_handler.ts`).

    External side effects (Chatwoot labels/priority/private notes, typing
    indicators, Messenger buttons) are collateral effects that never alter
    the stored flow or the reply routing; `SERVICE_FLOW_USE_BUTTONS`
    defaults to `'false'`, so `maybeSendMessengerQR` returns `false` and
    the public reply strings below are exactly what the handler returns.
    `LLM_SLOT_PREFILL` defaults to off (the env flag is unset), so the
    optional LLM enrichment inside `prefillFromMessage` contributes
    nothing, as the source guarantees on any failure. -/

def trimS (s : String) : String := ofChars (trimL (chars s))

def lowerS (s : String) : String := ofChars (lowerL (chars s))

/-- A collected slot value (`collected` holds numbers for guests and
    strings for time/date/name). -/
inductive FVal where
  | vs (s : String)
  | vn (n : Nat)
deriving DecidableEq, Repr

def fvalStr : FVal → String
  | .vs s => s
  | .vn n => toString n

/-- TS `Record<string, any>` for `collected`, modelled as an insertion-order
    association list (so claims about its *keys* stay meaningful). -/
abbrev Collected := List (String × FVal)

def getF (k : String) (c : Collected) : Option FVal :=
  (c.find? (fun p => p.1 = k)).map (·.2)

/-- JS object assignment: update in place if present, else append. -/
def setF (k : String) (v : FVal) : Collected → Collected
  | [] => [(k, v)]
  | (k', v') :: t => if k' = k then (k, v) :: t else (k', v') :: setF k v t

/-- The legacy `pending` booking-details shape. -/
structure BookingDetails where
  name : Option String := none
  guests : Option Nat := none
  date : Option String := none
  time : Option String := none
deriving DecidableEq, Repr

/-- The duck-typed `service_flow` payload: the full slot-filling shape uses
    `service_key`/`required`/`collected`/`next`/`pending_time_raw`, the
    legacy shape uses `pending`/`step`; the handler discriminates on which
    keys are present, exactly as the source does. -/
structure Flow where
  service_key : Option String := none
  required : Option (List String) := none
  collected : Collected := []
  next : Option String := none
  pending_time_raw : Option String := none
  pending : Option BookingDetails := none
  step : Option String := none
deriving DecidableEq, Repr

/-- What one `handleService` call produces: the stored flow afterwards
    (`none` = cleared), the public reply, the `meta.step` tag, and the
    escalate flag. -/
structure StepOut where
  flow' : Option Flow
  reply : Option String
  stepTag : String
  escalate : Bool := false
deriving Repr

/-- `REQUIRED_FIELDS` (`service_handler.ts`). -/
def requiredFields : String → Option (List String)
  | "BOOK_TABLE" => some ["guests", "time", "date", "name"]
  | "LATE_CHECKOUT" => some ["time", "name"]
  | "SPA_BOOKING" => some ["date", "time", "name"]
  | _ => none

/-- `w1\s+w2\s+…` literal sequence (no word boundaries), case-insensitive. -/
def litSeqAt (ws : List (List Char)) (l : List Char) : Option (List Char) :=
  match ws with
  | [] => some l
  | [w] => ciPfx w l
  | w :: rest =>
    match ciPfx w l with
    | some r =>
      match wsPlus r with
      | some r2 => litSeqAt rest r2
      | none => none
    | none => none

def hasLitSeq (ws : List (List Char)) (l : List Char) : Bool :=
  (scanP (fun _ t => (litSeqAt ws t).map (fun _ => ())) none l).isSome

/-- `w1.{0,gap}w2` (case-insensitive, `.` over our newline-free messages). -/
def gapMatch (w1 w2 : List Char) (gap : Nat) (l : List Char) : Bool :=
  (scanP (fun _ t =>
    match ciPfx w1 t with
    | some r =>
      if (List.range (gap + 1)).any (fun k => (ciPfx w2 (r.drop k)).isSome) then some ()
      else none
    | none => none) none l).isSome

/-- `w1.*(w2a|w2b)` (case-insensitive). -/
def gapAny (w1 : List Char) (w2s : List (List Char)) (l : List Char) : Bool :=
  (scanP (fun _ t =>
    match ciPfx w1 t with
    | some r => if w2s.any (fun w => containsSub w (lowerL r)) then some () else none
    | none => none) none l).isSome

def ciContains (hay : String) (needle : String) : Bool :=
  containsSub (chars needle) (lowerL (chars hay))

/-- `REGISTRY[BOOK_TABLE].patterns.some(rx => rx.test(text))`. -/
def bookTableMatch (text : String) : Bool :=
  let l := chars text
  ciContains text "reserve" || ciContains text "reservation" ||
  hasLitSeq [chars "book", chars "a", chars "table"] l ||
  gapMatch (chars "book") (chars "tabl") 12 l ||
  hasLitSeq [chars "table", chars "for"] l &&
    (scanP (fun _ t =>
      match litSeqAt [chars "table", chars "for"] t with
      | some r =>
        match wsPlus r with
        | some r2 => if (r2.headD ' ').isDigit then some () else none
        | none => none
      | none => none) none l).isSome ||
  hasLitSeq [chars "can", chars "i", chars "book", chars "a", chars "table"] l ||
  gapMatch (chars "book") (chars "tbale") 12 l ||
  gapMatch (chars "bok") (chars "table") 12 l ||
  gapMatch (chars "b00k") (chars "table") 12 l

/-- `REGISTRY[LATE_CHECKOUT].patterns`. -/
def lateCheckoutMatch (text : String) : Bool :=
  let l := lowerL (chars text)
  -- `/late\s*check\s*out/i` and `/extend\s*checkout/i` (`\s*` joins)
  (scanP (fun _ t =>
    match pfx (chars "late") t with
    | some r =>
      match pfx (chars "check") (wsStar r) with
      | some r2 => (pfx (chars "out") (wsStar r2)).map (fun _ => ())
      | none => none
    | none => none) none l).isSome ||
  (scanP (fun _ t =>
    match pfx (chars "extend") t with
    | some r => (pfx (chars "checkout") (wsStar r)).map (fun _ => ())
    | none => none) none l).isSome

/-- `REGISTRY[SPA_BOOKING].patterns`. -/
def spaBookingMatch (text : String) : Bool :=
  let l := chars text
  gapAny (chars "spa") [chars "book", chars "reserve"] l ||
  gapAny (chars "massage") [chars "book"] l ||
  gapAny (chars "facial") [chars "book"] l ||
  gapAny (chars "treatment") [chars "book"] l

/-- `matchService` (`service_handler.ts`): registry keys in insertion order. -/
def matchService (text : String) : Option String :=
  if bookTableMatch text then some "BOOK_TABLE"
  else if lateCheckoutMatch text then some "LATE_CHECKOUT"
  else if spaBookingMatch text then some "SPA_BOOKING"
  else none

/-- `^(\d{1,2}):(\d{2})$`. -/
def hmmMatch (l : List Char) : Option (Nat × List Char) :=
  dig2K l (fun h r =>
    match r with
    | ':' :: a :: b :: t =>
      if isDigitC a && isDigitC b && t.isEmpty then some (h, [a, b]) else none
    | _ => none)

/-- `formatAmPm` (`service_handler.ts`): `H:MM` gets an AM/PM suffix
    (guessing AM for hours below 12); anything else is returned unchanged. -/
def formatAmPm (time : String) : String :=
  match hmmMatch (chars time) with
  | none => time
  | some (hh, mm) =>
    let period := if 12 ≤ hh then "PM" else "AM"
    let hh := if hh = 0 then 12 else hh
    let hh := if hh > 12 then hh - 12 else hh
    toString hh ++ ":" ++ ofChars mm ++ " " ++ period

def upperChar (c : Char) : Char :=
  if 97 ≤ c.toNat ∧ c.toNat ≤ 122 then Char.ofNat (c.toNat - 32) else c

/-- `split(/\s+/)` (JS keeps an empty first/last piece for edge whitespace). -/
def splitWsJS (l : List Char) : List (List Char) :=
  go l.length [] l
where
  go : Nat → List Char → List Char → List (List Char)
    | _, acc, [] => [acc.reverse]
    | 0, acc, rest => [acc.reverse ++ rest]
    | fuel + 1, acc, c :: t =>
      if isWs c then acc.reverse :: go fuel [] (t.dropWhile isWs)
      else go fuel (c :: acc) t

/-- `toTitleCase` (`service_handler.ts`). -/
def toTitleCase (name : String) : String :=
  ofChars (List.intercalate [' ']
    ((splitWsJS (chars name)).map (fun w =>
      match w with
      | [] => []
      | c :: t => upperChar c :: lowerL t)))

/-- `buildDetailsSummary` (`service_handler.ts`); note the source joins the
    lines with the two-character sequence `\n` (a literal backslash-n). -/
def buildDetailsSummary (collected : Collected) : String :=
  String.intercalate "\\n"
    (((getF "name" collected).map (fun v => "Name: " ++ toTitleCase (fvalStr v))).toList ++
     ((getF "guests" collected).map (fun v => "Guests: " ++ fvalStr v)).toList ++
     ((getF "time" collected).map (fun v => "Time: " ++ formatAmPm (fvalStr v))).toList ++
     ((getF "date" collected).map (fun v => "Date: " ++ fvalStr v)).toList)

/-- `buildConfirmMessage` (`service_handler.ts`, legacy confirm shape). -/
def buildConfirmMessage (d : BookingDetails) : String :=
  String.intercalate "\n"
    ["Please confirm your booking details:",
     "• Name: " ++ ((d.name.map toTitleCase).getD "-"),
     "• Guests: " ++ ((d.guests.map toString).getD "-"),
     "• Date: " ++ (d.date.getD "-"),
     "• Time: " ++ ((d.time.map formatAmPm).getD "-"),
     "Reply 'Yes' to send, or 'No' to edit."]

/-- `normalizeYesNo` (`service_handler.ts`). -/
def normalizeYesNo (text : String) : Option Bool :=
  let s := ofChars (lowerL (trimL (chars text)))
  if ["yes", "y", "yeah", "yep", "sure", "ok", "okay"].contains s then some true
  else if ["no", "n", "nope", "nah"].contains s then some false
  else none

/-- `parseForField` (`service_handler.ts`). -/
def parseForField (env : DateEnv) (field : String) (text : String) : Option FVal :=
  match field with
  | "guests" => (parseGuests text).map .vn
  | "time" => (parseTime text).map .vs
  | "date" => (parseDate env text).map .vs
  | "name" => (parseName text).map .vs
  | _ => none

/-- Leading `^(\d{1,2})` of a raw parsed time (the `timeNeedsAmPm` probe). -/
def leadHour (l : List Char) : Option Nat :=
  match l with
  | a :: t =>
    if isDigitC a then
      match t with
      | b :: _ => if isDigitC b then some (10 * digitVal a + digitVal b) else some (digitVal a)
      | [] => some (digitVal a)
    else none
  | [] => none

/-- `timeNeedsAmPm` (`service_handler.ts`). -/
def timeNeedsAmPm (userText rawParsed : String) : Bool :=
  if isTimeUnclear userText then true
  else if rawParsed = "" then false
  else if ciContains userText "am" || ciContains userText "pm" then false
  else
    match leadHour (chars rawParsed) with
    | none => false
    | some hour => if 13 ≤ hour then false else decide (1 ≤ hour ∧ hour ≤ 12)

/-- `extractTimeToken` (`service_handler.ts`): prefer an `H:MM`/`H.MM` token
    from the original message, with the first `.` turned into `:`. -/
def extractTimeToken (text fallback : String) : String :=
  match scanP (fun prev l =>
    if bdry prev l then
      dig2K l (fun _ r =>
        match r with
        | sep :: a :: b :: t =>
          if (sep = ':' ∨ sep = '.') && isDigitC a && isDigitC b && bdryW t then
            some (l.take (l.length - t.length))
          else none
        | _ => none)
    else none) none (chars text) with
  | some m0 => ofChars (replaceFirstDot m0)
  | none => fallback
where
  replaceFirstDot : List Char → List Char
    | [] => []
    | c :: t => if c = '.' then ':' :: t else c :: replaceFirstDot t

/-- `TIME_PERIOD_SYNONYMS.en` (`service_handler.ts`). -/
def SYN_AM : List String := ["am", "a.m.", "morning", "mrn", "morn", "moorning"]

def SYN_PM : List String :=
  ["pm", "p.m.", "evening", "eve", "evng", "evning", "night", "ngt", "nigt",
   "afternoon", "aft"]

/-- The AM/PM clarifier merge (`service_handler.ts`, clarifier block):
    synonym containment, a bare `am`/`pm`, any am/pm substring, or a fully
    retyped time. -/
def clarifierCombined (message : String) (hasPending : String) : Option String :=
  let apOnly := ofChars (lowerL (trimL (chars message)))
  if SYN_AM.any (fun s => containsSub (chars s) (chars apOnly)) || apOnly = "am" then
    some (hasPending ++ " am")
  else if SYN_PM.any (fun s => containsSub (chars s) (chars apOnly)) || apOnly = "pm" then
    some (hasPending ++ " pm")
  else if containsSub (chars "am") (chars apOnly) || containsSub (chars "pm") (chars apOnly) then
    some (hasPending ++ " " ++ apOnly)
  else if (parseTime apOnly).isSome then some apOnly
  else none

/-- `askPrompt` (`service_handler.ts`); `UI.en.ask_time` is
    "What time would you like?". -/
def askPrompt : Option String → String
  | some "guests" => "How many guests?"
  | some "time" => "What time would you like?"
  | some "date" => "📅 Which date?"
  | some "name" => "Under what name should I put the booking?"
  | _ => "Could you share a few more details?"

structure Prompt where
  text : String
  quickReplies : List (String × String) := []
deriving Repr

/-- `buildPrompt` (`service_handler.ts`); `UI.en.ask_date` is "Which date?"
    and `UI.en.qr_today`/`qr_tomorrow` are "Today"/"Tomorrow". -/
def buildPrompt : Option String → Prompt
  | some "date" => ⟨"Which date?", [("Today", "today"), ("Tomorrow", "tomorrow")]⟩
  | f => ⟨askPrompt f, []⟩

/-- `formatUI(UI.en.clarify_time_period, { time })`. -/
def clarifyTimeText (raw : String) : String :=
  "Just to be sure — " ++ raw ++ " in the morning or in the evening?"

def confirmQRs : List (String × String) := [("Yes", "YES"), ("No", "NO")]

/-- The full-shape confirmation question. -/
def confirmText (collected : Collected) : String :=
  "Please confirm:\n" ++ buildDetailsSummary collected ++ "\n\nIs this correct?"

/-- `tryFieldUpdate` (`service_handler.ts`, legacy edit step). -/
def tryFieldUpdate (env : DateEnv) (text : String) (current : BookingDetails) :
    Option BookingDetails :=
  let afterGuests :=
    match parseGuests text with
    | some g => ({ current with guests := some g }, true)
    | none => (current, false)
  let afterTime :=
    match parseTime text with
    | some tRaw => ({ afterGuests.1 with time := some (prettyTime tRaw) }, true)
    | none => afterGuests
  let afterDate :=
    let iso := normalizeDateToISO env text
    let dRaw := iso.orElse (fun _ => parseDate env text)
    match dRaw with
    | some d =>
      if !isDateUnclear env d then
        ({ afterTime.1 with date := some (prettyDate env d) }, true)
      else afterTime
    | none => afterTime
  let afterName :=
    match parseName text with
    | some n => ({ afterDate.1 with name := some n }, true)
    | none => afterDate
  if afterName.2 then some afterName.1 else none

/-- `prefillFromMessage` (`service_handler.ts`), with `LLM_SLOT_PREFILL`
    off (its default): local parsers only. -/
structure Prefill where
  guests : Option Nat := none
  time : Option String := none
  date : Option String := none
  name : Option String := none
  pendingTimeRaw : Option String := none
deriving Repr

def prefillFromMessage (env : DateEnv) (text : String) : Prefill :=
  let g := parseGuests text
  let (time, pendingRaw) :=
    match parseTime text with
    | some tRaw =>
      if timeNeedsAmPm text tRaw then (none, some (extractTimeToken text tRaw))
      else (some (prettyTime tRaw), none)
    | none => (none, none)
  let iso := normalizeDateToISO env text
  let dRaw := iso.orElse (fun _ => parseDate env text)
  let date :=
    match dRaw with
    | some d => if !isDateUnclear env d then some (prettyDate env d) else none
    | none => none
  { guests := g, time := time, date := date, name := parseName text,
    pendingTimeRaw := pendingRaw }

/-- Build the `collected` object at flow start (insertion order
    guests/time/date/name, as in the source). -/
def prefillCollected (pre : Prefill) : Collected :=
  (pre.guests.map (fun g => [("guests", FVal.vn g)])).getD [] ++
  (pre.time.map (fun t => [("time", FVal.vs t)])).getD [] ++
  (pre.date.map (fun d => [("date", FVal.vs d)])).getD [] ++
  (pre.name.map (fun n => [("name", FVal.vs n)])).getD []

/-- Start a slot-filling flow for `key` (common body of the DB-backed and
    regex paths of `handleService`; both construct the same state).  The
    `tag` prefix distinguishes the path only in `meta.step`. -/
def startFlow (env : DateEnv) (key : String) (message : String) (tagPfx : String) : StepOut :=
  let pre := prefillFromMessage env message
  let collected := prefillCollected pre
  let required := (requiredFields key).getD []
  let missing := required.filter (fun f => (getF f collected).isNone)
  let flow : Flow :=
    { service_key := some key,
      required := some required,
      collected := collected,
      next := missing.head?,
      pending_time_raw := pre.pendingTimeRaw }
  match pre.pendingTimeRaw with
  | some raw =>
    ⟨some flow, some (clarifyTimeText raw), tagPfx ++ "_time_clarify", false⟩
  | none =>
    if !missing.isEmpty then
      let prompt := buildPrompt missing.head?
      ⟨some flow, some ("Yes, I can take your booking.\n" ++ prompt.text), tagPfx, false⟩
    else
      let flow2 : Flow :=
        { service_key := some key,
          required := some required,
          collected := collected,
          next := some "confirm" }
      ⟨some flow2, some (confirmText collected), tagPfx ++ "_confirm", false⟩

/-- The full slot-filling step on an existing `service_key` flow
    (`service_handler.ts` lines 448–823). -/
def fullStep (env : DateEnv) (flow : Flow) (message : String) : StepOut :=
  let key := flow.service_key.getD ""
  let required := flow.required.getD ((requiredFields key).getD [])
  let collected := flow.collected
  if flow.next = some "confirm" then
    let lower := lowerS message
    let yes := lower = "y" ∨ lower = "yes"
    let no := lower = "n" ∨ lower = "no"
    if yes then
      let detailsLines := buildDetailsSummary collected
      let confirmation :=
        "Got it 👍 I’ve sent this to the team to confirm availability. You’ll get a message shortly." ++
        (if detailsLines ≠ "" then "\n\nDetails:\n" ++ detailsLines else "")
      ⟨none, some confirmation, "confirmed_final", false⟩
    else if no then
      let first := required.head?
      let restartFlow := { flow with collected := [], required := some required, next := first }
      let prompt := buildPrompt first
      ⟨some restartFlow, some ("No problem, let’s try again.\n" ++ prompt.text),
        "confirm_restart", false⟩
    else
      ⟨some flow, some (confirmText collected), "confirm_repeat", false⟩
  else
    let currentMissing := required.filter (fun f => (getF f collected).isNone)
    let currentField := flow.next.orElse (fun _ => currentMissing.head?)
    -- multi-language clarifier (merge AM/PM, clear pending, continue/finalize)
    match flow.pending_time_raw with
    | some hasPending =>
      (match clarifierCombined message hasPending with
       | some combined =>
         let collected := setF "time" (FVal.vs (prettyTime combined)) collected
         let remaining := required.filter (fun f => (getF f collected).isNone)
         let next := remaining.head?
         let flowToSave :=
           { flow with
             collected := collected,
             required := some required,
             next := next,
             pending_time_raw := none }
         match next with
         | some _ =>
           let prompt := buildPrompt next
           ⟨some flowToSave,
            some ("Got it 👍 " ++ formatAmPm (prettyTime combined) ++ "\n" ++ prompt.text),
            "time_clarified_next", false⟩
         | none =>
           -- the source then stores a second state spread from `existingFlow`,
           -- which still carries `pending_time_raw`
           let flowToConfirm :=
             { flow with
               collected := collected,
               required := some required,
               next := some "confirm" }
           ⟨some flowToConfirm, some (confirmText collected), "time_clarified_confirm", false⟩
       | none => slotStep env flow required collected currentField message)
    | none => slotStep env flow required collected currentField message
where
  /-- The `currentField` parse/advance section plus the shared
      missing-recompute tail. -/
  slotStep (env : DateEnv) (flow : Flow) (required : List String)
      (collected : Collected) (currentField : Option String) (message : String) : StepOut :=
    match currentField with
    | none => finishStep flow required collected
    | some cf =>
      let val := parseForField env cf message
      if cf = "time" ∧ val.isSome then
        let raw := fvalStr (val.getD (FVal.vs ""))
        let normalized := normalizeTime raw
        if normalized.isNone && timeNeedsAmPm message raw then
          -- do not touch `next`, so the slot is not re-asked after clarifying
          let flowToSave :=
            { flow with
              collected := collected,
              required := some required,
              pending_time_raw := some raw }
          ⟨some flowToSave, some (clarifyTimeText raw), "time_clarify", false⟩
        else
          finishStep flow required (setF "time" (FVal.vs (prettyTime raw)) collected)
      else if cf = "date" then
        let iso := normalizeDateToISO env message
        if iso.isNone && (val.isNone || isDateUnclear env (fvalStr (val.getD (FVal.vs "")))) then
          let flowToSave :=
            { flow with
              collected := collected,
              required := some required,
              next := some "date" }
          ⟨some flowToSave,
           some "Sorry, I didn’t catch the date — please reply like “1 September” or “today/tomorrow”.",
           "date_clarify", false⟩
        else
          let dateVal :=
            match iso with
            | some i => prettyDate env i
            | none => prettyDate env (fvalStr (val.getD (FVal.vs "")))
          finishStep flow required (setF "date" (FVal.vs dateVal) collected)
      else
        match val with
        | some v => finishStep flow required (setF cf v collected)
        | none => finishStep flow required collected
  /-- Recompute `missing`, then either ask for the next slot (clearing any
      leftover pending hour) or move to the confirm stage. -/
  finishStep (flow : Flow) (required : List String) (collected : Collected) : StepOut :=
    let missing := required.filter (fun f => (getF f collected).isNone)
    match missing.head? with
    | some nxt =>
      let flowToSave :=
        { flow with
          collected := collected,
          required := some required,
          next := some nxt,
          pending_time_raw := none }
      let prompt := buildPrompt (some nxt)
      ⟨some flowToSave, some prompt.text, "slot_filling", false⟩
    | none =>
      let flowToConfirm :=
        { flow with
          collected := collected,
          required := some required,
          next := some "confirm" }
      ⟨some flowToConfirm, some (confirmText collected), "confirm", false⟩

/-- The legacy `pending`/`step` confirm-edit branch; `none` means the step
    key matched neither stage and control falls through. -/
def legacyStep (env : DateEnv) (flow : Flow) (pending : BookingDetails)
    (message : String) : Option StepOut :=
  if flow.step = some "confirm" then
    some (match normalizeYesNo message with
    | some true =>
      ⟨none,
       some "✅ Great! I’ve sent your booking request to our team. We’ll confirm availability shortly.",
       "confirmed", true⟩
    | some false =>
      ⟨some { pending := some pending, step := some "ask_change" },
       some "No problem. What would you like to change? (name / guests / date / time)",
       "ask_change", false⟩
    | none => ⟨some flow, some (buildConfirmMessage pending), "confirm_repeat", false⟩)
  else if flow.step = some "ask_change" then
    some (match tryFieldUpdate env message pending with
    | some updated =>
      ⟨some { pending := some updated, step := some "confirm" },
       some (buildConfirmMessage updated), "confirm_after_edit", false⟩
    | none =>
      ⟨some flow,
       some "I didn’t catch that. You can say things like '3 guests', 'time 7:15pm', or 'name is Anna'.",
       "edit_unrecognized", false⟩)
  else none

/-- `REGISTRY[key].reply` canned replies. -/
def registryReply : String → Option String
  | "BOOK_TABLE" =>
    some "I can help with a table booking. Please share: date, time, number of guests, and a name. I’ll confirm availability right away."
  | "LATE_CHECKOUT" =>
    some "Late checkout is usually possible. What time would you prefer? I’ll check availability and confirm any fee."
  | "SPA_BOOKING" =>
    some "Great choice! Tell me your preferred date/time and treatment type, and I’ll arrange the spa booking for you."
  | _ => none

/-- `handleService` (`service_handler.ts`).  The DB-backed `service_map`
    lookup queries external data that is not part of this repository and
    falls back to the regex registry on failure; when it does resolve a
    key with `REQUIRED_FIELDS`, it builds exactly the state `startFlow`
    builds (the two code paths are textually identical), so flow creation
    is modelled by `startFlow` and discovery by `matchService`. -/
def handleService (env : DateEnv) (flow0 : Option Flow) (text : String) : StepOut :=
  let message := trimS text
  if message = "" then ⟨flow0, none, "empty_message", true⟩
  else
    let legacy : Option StepOut :=
      match flow0 with
      | some flow =>
        match flow.pending with
        | some pending => legacyStep env flow pending message
        | none => none
      | none => none
    match legacy with
    | some out => out
    | none =>
      match flow0 with
      | some flow =>
        if flow.service_key.isSome then fullStep env flow message
        else startService env flow0 message
      | none => startService env flow0 message
where
  startService (env : DateEnv) (flow0 : Option Flow) (message : String) : StepOut :=
    match matchService message with
    | some key =>
      match requiredFields key with
      | some _ => startFlow env key message "start_flow_regex_prefill"
      | none => ⟨flow0, registryReply key, "REGEX", false⟩
    | none => ⟨flow0, none, "unknown_service", true⟩

/-- Reachable stored flows of the dialog engine: created by a flow start
    for a key that has `REQUIRED_FIELDS` (the DB-backed path and the regex
    fallback construct identical state), then evolved by `handleService`
    steps on arbitrary guest messages. -/
inductive ReachableFlow (env : DateEnv) : Flow → Prop where
  | start (key msg : String) (req : List String) (tag : String)
      (hreq : requiredFields key = some req) (f : Flow)
      (hf : (startFlow env key msg tag).flow' = some f) : ReachableFlow env f
  | step (f : Flow) (msg : String) (f' : Flow) (hr : ReachableFlow env f)
      (hf : (handleService env (some f) msg).flow' = some f') : ReachableFlow env f'

/-! ### Conversation state store (`src/repos/conv_state_repo.ts`).

    One row per (property, conversation); the SQL `UPDATE` statements are
    embedded as pure record updates listing exactly the columns each
    statement sets.  `service_flow` is the column read/written by
    `getServiceFlow`/`setServiceFlow`.  Timestamps are milliseconds. -/

structure ConvState where
  paused : Bool := false
  resume_at : Option Nat := none
  paused_until : Option Nat := none
  escalated : Bool := false
  watch_mode : Bool := false
  clarify_attempts : Nat := 0
  negative_count : Nat := 0
  service_flow : Option Flow := none
deriving DecidableEq, Repr

/-- `ensureState` inserts the defaults (used on conflict-free first write). -/
def ensureStateRow : ConvState := {}

/-- `enterSoftWatch`: `SET watch_mode=true`. -/
def enterSoftWatch (s : ConvState) : ConvState := { s with watch_mode := true }

/-- `incrementClarify`. -/
def incrementClarify (s : ConvState) : ConvState :=
  { s with clarify_attempts := s.clarify_attempts + 1 }

/-- `incrementNegative`. -/
def incrementNegative (s : ConvState) : ConvState :=
  { s with negative_count := s.negative_count + 1 }

/-- `markEscalatedOnce`: the conditional `UPDATE … SET escalated=true WHERE
    escalated=false`; returns `true` iff the row had been escalated before
    (i.e. no row was updated now). -/
def markEscalatedOnce (s : ConvState) : Bool × ConvState :=
  (s.escalated, { s with escalated := true })

/-- `enterHardPause minutes`: `paused=true, resume_at=now+minutes,
    watch_mode=false`. -/
def enterHardPause (s : ConvState) (now minutes : Nat) : ConvState :=
  { s with paused := true, resume_at := some (now + minutes * 60000),
           watch_mode := false }

/-- `resumeNow`: clears the pause fields, watch mode, and both counters. -/
def resumeNow (s : ConvState) : ConvState :=
  { s with paused := false, resume_at := none, paused_until := none,
           watch_mode := false, clarify_attempts := 0, negative_count := 0 }

/-- Deadline test of the auto-resume sweep's `WHERE` clause. -/
def sweepDue (now : Nat) (s : ConvState) : Bool :=
  s.paused &&
    ((s.resume_at.map (fun t => decide (t ≤ now))).getD false ||
     (s.paused_until.map (fun t => decide (t ≤ now))).getD false)

/-- `autoResumeDueConversations`: resume every due conversation (the
    `LIMIT 200` batch bound is dropped: it only staggers work over ticks). -/
def autoResumeDueConversations (now : Nat) (rows : List ConvState) : List ConvState :=
  rows.map (fun s => if sweepDue now s then resumeNow s else s)

/-- `clearPause`: clears only pause fields and watch mode (counters kept). -/
def clearPause (s : ConvState) : ConvState :=
  { s with paused := false, resume_at := none, paused_until := none,
           watch_mode := false }

/-- `clearState`: the "full reset" used by `resolveConversation`.  The SQL
    statement sets `paused`, `resume_at`, `paused_until`, `escalated`,
    `watch_mode`, `clarify_attempts`, `negative_count` — and no other
    column. -/
def clearState (s : ConvState) : ConvState :=
  { s with paused := false, resume_at := none, paused_until := none,
           escalated := false, watch_mode := false, clarify_attempts := 0,
           negative_count := 0 }

/-- `manualPauseForMinutes`: `paused=true, resume_at=now+minutes,
    paused_until=NULL, watch_mode=false`. -/
def manualPauseForMinutes (s : ConvState) (now minutes : Nat) : ConvState :=
  { s with paused := true, resume_at := some (now + minutes * 60000),
           paused_until := none, watch_mode := false }

/-- `clearPauseTimed`. -/
def clearPauseTimed (s : ConvState) : ConvState :=
  { s with paused := false, resume_at := none, paused_until := none }

/-- `resetNegativeCount`. -/
def resetNegativeCount (s : ConvState) : ConvState := { s with negative_count := 0 }

/-- `setServiceFlow`. -/
def setServiceFlow (s : ConvState) (flow : Option Flow) : ConvState :=
  { s with service_flow := flow }

/-! ### Escalation state machine (`src/handlers/escalation_handler.ts`).

    Chatwoot calls (labels, priority, status, private notes, assignment)
    are external collateral effects; they are recorded in the output so
    that notification/refresh claims can be stated, and their failures are
    swallowed by the source, never changing the state transition. -/

inductive Intent where
  | FAQ | SERVICE | CHITCHAT | UNKNOWN
deriving DecidableEq, Repr

def EMERGENCY_WORDS : List String :=
  ["fire", "medical", "ambulance", "flood", "theft", "police", "help now"]

/-- `priorityFromSignal` (`escalation_handler.ts`). -/
def priorityFromSignal (intent : Intent) (negativeCount : Nat) (text : String)
    (isNegative : Bool) : String :=
  let t := lowerS text
  if EMERGENCY_WORDS.any (fun w => containsSub (chars w) (chars t)) then "urgent"
  else if isNegative then "high"
  else if 2 ≤ negativeCount then "high"
  else if intent = Intent.SERVICE then "medium"
  else "low"

def NEEDS_STAFF_LABEL : String := "needs_staff"

def ISSUE_LABEL : String := "issue_report"

/-- `SOFTWATCH_NOTIFY_ONCE` defaults to `'true'`. -/
def SOFTWATCH_NOTIFY_ONCE_default : Bool := true

structure SoftEscalationOpts where
  notifyOnce : Option Bool := none
  label : Option String := none
  intent : Intent := Intent.UNKNOWN
  negativeCount : Nat := 0
  text : String := ""
  issue : Bool := false

/-- The observable effects of one `handleSoftEscalation` call. -/
structure SoftOut where
  labels : List String
  priority : String
  statusSet : String
  notified : Bool
  state : ConvState
deriving Repr

/-- `handleSoftEscalation` (`escalation_handler.ts`): refresh labels,
    priority and status unconditionally, notify staff only when the atomic
    `markEscalatedOnce` flip actually happened (and notification is
    enabled), then enter soft watch. -/
def handleSoftEscalation (s : ConvState) (opts : SoftEscalationOpts)
    (envNotifyOnce : Bool := SOFTWATCH_NOTIFY_ONCE_default) : SoftOut :=
  let labels := [NEEDS_STAFF_LABEL] ++
    (match opts.label with
     | some lb => if lb ≠ NEEDS_STAFF_LABEL then [lb] else []
     | none => []) ++
    (if opts.issue then [ISSUE_LABEL] else [])
  let prio := priorityFromSignal opts.intent opts.negativeCount opts.text opts.issue
  let res := markEscalatedOnce s
  let alreadyEsc := res.1
  let shouldNotify := opts.notifyOnce.getD envNotifyOnce
  let notified := !alreadyEsc && shouldNotify
  { labels := labels, priority := prio, statusSet := "open", notified := notified,
    state := enterSoftWatch res.2 }

/-- The "already paused" probe shared by `handleHardPause`/`resumeBot`:
    a future `resume_at`, a future `paused_until`, or the boolean flag. -/
def pausedProbe (s : ConvState) (now : Nat) : Bool :=
  (s.resume_at.map (fun t => decide (now < t))).getD false ||
  (s.paused_until.map (fun t => decide (now < t))).getD false ||
  s.paused

structure HardPauseOut where
  statusSet : String
  notePosted : Bool
  state : ConvState
deriving Repr

/-- `handleHardPause` (`escalation_handler.ts`): status to open, a pause
    note only on the first transition, then `manualPauseForMinutes`. -/
def handleHardPause (s : ConvState) (now : Nat) (minutes : Nat := 30) : HardPauseOut :=
  let alreadyPaused := pausedProbe s now
  { statusSet := "open", notePosted := !alreadyPaused,
    state := manualPauseForMinutes s now minutes }

structure ResumeOut where
  statusSet : String
  notePosted : Bool
  state : ConvState
deriving Repr

/-- `resumeBot` (`escalation_handler.ts`): `clearPause` then
    `resetNegativeCount`, status to open, and a "resumed" note only if the
    conversation was actually paused. -/
def resumeBot (s : ConvState) (now : Nat) : ResumeOut :=
  let wasPaused := pausedProbe s now
  { statusSet := "open", notePosted := wasPaused,
    state := resetNegativeCount (clearPause s) }

structure ResolveOut where
  statusSet : String
  notePosted : Bool
  state : ConvState
deriving Repr

/-- `resolveConversation` (`escalation_handler.ts`): status to resolved, a
    closing note, then `clearState`. -/
def resolveConversation (s : ConvState) : ResolveOut :=
  { statusSet := "resolved", notePosted := true, state := clearState s }

/-! ### Pause gate and router entry (`src/middleware/pauseGate.ts`,
    `src/app/intent_router.ts`). -/

/-- `pauseGate` (`pauseGate.ts`): blocked iff a state row exists and its
    `paused` boolean is set — the deadline columns are never consulted. -/
def pauseGate (st : Option ConvState) : Bool :=
  match st with
  | none => false
  | some s => s.paused

inductive StaffCmd where
  | resume | pause | resolve | status
deriving DecidableEq, Repr

/-- `parseCommand` (`intent_router.ts`): case-insensitive prefix match on
    the trimmed text. -/
def parseCommand (t : String) : Option StaffCmd :=
  let s := chars (lowerS (trimS t))
  if (pfx (chars "@boton") s).isSome then some .resume
  else if (pfx (chars "@botoff") s).isSome then some .pause
  else if (pfx (chars "@resolve") s).isSome then some .resolve
  else if (pfx (chars "@botstatus") s).isSome then some .status
  else none

/-- `DEFAULTS.auto_resume_minutes` (`intent_router.ts`). -/
def DEFAULT_auto_resume_minutes : Nat := 30

/-- What the router decides before classification. -/
structure RouterEntryOut where
  state : ConvState
  skipped : Bool
  reason : String
  escalated : Option Bool
  /-- `replyFromBot` calls made before returning (none in this portion). -/
  replies : List String
  /-- `true` when control continues to welcome-shortcut/classification. -/
  proceeds : Bool
deriving Repr

/-- Steps 0 and 1 of `intentRouter` (`intent_router.ts`): staff commands
    are always processed first; then the pause gate blocks everything else
    with `{skipped:true, reason:'paused'}` and no reply.  Classification
    and flow dispatch only run when this returns `proceeds = true`. -/
def intentRouterEntry (st : ConvState) (text : String) (now : Nat)
    (autoResumeMinutes : Nat := DEFAULT_auto_resume_minutes) : RouterEntryOut :=
  match parseCommand text with
  | some .resume =>
    ⟨(resumeBot st now).state, false, "command_resume", some false, [], false⟩
  | some .pause =>
    ⟨(handleHardPause st now autoResumeMinutes).state, false, "command_pause",
     some true, [], false⟩
  | some .resolve =>
    ⟨(resolveConversation st).state, false, "command_resolve", some false, [], false⟩
  | some .status => ⟨st, true, "command_status_noop", none, [], false⟩
  | none =>
    if pauseGate (some st) then ⟨st, true, "paused", none, [], false⟩
    else ⟨st, false, "", none, [], true⟩

/-! ### Staff commands in the Chatwoot webhook
    (`src/webhooks/chatwoot_webhook.ts`, agent-private branch). -/

/-- `AUTO_RESUME_MINUTES` env default used by the webhook `@botoff` branch. -/
def AUTO_RESUME_MINUTES_default : Nat := 30

inductive WebhookCmdOut where
  | hardPaused (state : ConvState)
  | resumed (state : ConvState)
  | statusSent (state : ConvState)
  | ignored (state : ConvState)
deriving DecidableEq, Repr

/-- The agent-private command dispatch of the Chatwoot webhook: the tests
    are bare case-insensitive substring regexes (`/@botoff/i`, `/@boton/i`,
    `/@botstatus/i`) — no argument is ever parsed, and `@botoff` always
    pauses for `AUTO_RESUME_MINUTES` (default 30). -/
def webhookAgentCommand (s : ConvState) (text : String) (now : Nat)
    (envAutoResumeMinutes : Nat := AUTO_RESUME_MINUTES_default) : WebhookCmdOut :=
  if containsSub (chars "@botoff") (lowerL (chars text)) then
    .hardPaused (handleHardPause s now envAutoResumeMinutes).state
  else if containsSub (chars "@boton") (lowerL (chars text)) then
    .resumed (resumeBot s now).state
  else if containsSub (chars "@botstatus") (lowerL (chars text)) then
    .statusSent s
  else .ignored s

/-! ### Intent decision engine (`src/app/decision_engine.ts`) and the
    smalltalk recognizer it consults (`smalltalk_handler.ts`). -/

/-- `normalize` (both files): `toLowerCase().trim()`. -/
def normalizeDE (t : String) : List Char := trimL (lowerL (chars t))

def NEGATIVE_KEYWORDS : List String :=
  ["not happy", "angry", "bad", "terrible", "awful",
   "leaking", "leak", "broken", "complaint",
   "refund", "charge dispute", "dirty", "rude"]

def SERVICE_KEYWORDS : List String :=
  ["booking", "reservation", "check-in", "checkin", "change my booking",
   "maintenance", "repair", "ac", "aircon", "key card", "room move",
   "table", "spa", "massage", "treatment", "charge", "refund",
   "bill", "invoice", "receipt"]

/-- `detectNegative` (`decision_engine.ts`): keyword containment over the
    normalized text. -/
def detectNegative (t : String) : Bool :=
  NEGATIVE_KEYWORDS.any (fun k => containsSub (chars k) (normalizeDE t))

/-- `detectService` (`decision_engine.ts`). -/
def detectService (t : String) : Bool :=
  SERVICE_KEYWORDS.any (fun k => containsSub (chars k) (normalizeDE t))

/-- `isQuestion` (`decision_engine.ts`): trailing `?`, an interrogative
    leading word, or an info-seeking term. -/
def isQuestion (t : String) : Bool :=
  let s := normalizeDE t
  if s.isEmpty then false
  else if s.getLast? = some '?' then true
  else if (["what", "when", "where", "how", "who", "which"]).any
      (fun q => (pfx (chars (q ++ " ")) s).isSome) then true
  else
    (["price", "time", "open", "hours"]).any (fun k => containsSub (chars k) s)

/-- The greeting/thanks alternations of `isSmalltalk`
    (`smalltalk_handler.ts`): `(^|\b) ALT (\b|!|\.|,)`. -/
def smalltalkTest (alts : List (List Char)) (l : List Char) : Bool :=
  (scanP (fun prev t =>
    if prev = none ∨ bdry prev t then
      firstSome (alts.map (fun a =>
        match pfx a t with
        | some r =>
          if bdry a.getLast? r ||
             (match r with
              | c :: _ => c = '!' || c = '.' || c = ','
              | [] => false) then some () else none
        | none => none))
    else none) none l).isSome

/-- `isSmalltalk` (`smalltalk_handler.ts`). -/
def isSmalltalk (text : String) : Bool :=
  let t := normalizeDE text
  smalltalkTest ((["hi", "hello", "hey", "xin chào", "chào", "good morning",
    "good afternoon", "good evening"]).map chars) t ||
  smalltalkTest ((["thanks", "thank you", "cảm ơn"]).map chars) t

structure DecideOut where
  intent : Intent
  /-- Confidence in hundredths (0.9 ↦ 90 …). -/
  confidence : Nat
  negative : Bool
deriving DecidableEq, Repr

/-- `decide` (`decision_engine.ts`): `chitchatEnabled` is the per-property
    setting with `undefined` defaulting to enabled
    (`settings?.chitchat_enabled !== false`). -/
def decide (chitchat_enabled : Option Bool) (text : String) : DecideOut :=
  let t := trimS text
  let s := ofChars (normalizeDE t)
  let chitchatEnabled := chitchat_enabled ≠ some false
  let negative := detectNegative s
  let service := detectService s
  if service || negative then ⟨.SERVICE, 90, negative⟩
  else if chitchatEnabled && isSmalltalk t then ⟨.CHITCHAT, 99, negative⟩
  else if isQuestion s then ⟨.FAQ, 85, negative⟩
  else ⟨.UNKNOWN, 50, negative⟩

/-- The classifier as the specification sentence words it: four cases in
    priority order with fixed confidences, the negative flag computed
    independently.  (Spec-side definition, to be compared with `decide`.) -/
def decisionSpec (chitchat_enabled : Option Bool) (text : String) : DecideOut :=
  let t := trimS text
  let s := ofChars (normalizeDE t)
  let negative := detectNegative s
  if detectNegative s || detectService s then
    { intent := .SERVICE, confidence := 90, negative := negative }
  else if (chitchat_enabled ≠ some false) && isSmalltalk t then
    { intent := .CHITCHAT, confidence := 99, negative := negative }
  else if isQuestion s then
    { intent := .FAQ, confidence := 85, negative := negative }
  else
    { intent := .UNKNOWN, confidence := 50, negative := negative }

/-! ### A concrete calendar instantiation of `DateEnv`

    (today = Monday, 2026-10-12).  Used only by closed
    counterexamples/witnesses; no claim depends on the calendar values. -/

def MONTHS_DISP : List String :=
  ["January", "February", "March", "April", "May", "June",
   "July", "August", "September", "October", "November", "December"]

def monthName (i : Nat) : String := (MONTHS_DISP.drop i).headD ""

def fmtDisp (d : Nat) (mIdx : Nat) : String := pad2S d ++ " " ++ monthName mIdx

def sampleWdDay (i : Nat) : Nat := if i = 0 then 18 else 12 + i

def sampleWdDayStrict (i : Nat) : Nat := if i = 0 then 25 else 18 + i

def sampleEnv : DateEnv :=
  { todayDisp := "12 October",
    tomorrowDisp := "13 October",
    weekdayDisp := fun i => fmtDisp (if i = 0 then 18 else 11 + i) 9,
    weekdayStrictDisp := fun i => fmtDisp (if i = 0 then 25 else 18 + i) 9,
    dmyDisp := fun d m _ => fmtDisp d (m - 1),
    dMonthDisp := fun d mIdx => fmtDisp d mIdx,
    todayISO := "2026-10-12",
    tomorrowISO := "2026-10-13",
    mkISO := fun y m d => toString y ++ "-" ++ pad2S m ++ "-" ++ pad2S d,
    dmyISO := fun d m _ => "2026-" ++ pad2S m ++ "-" ++ pad2S d,
    dMonthISO := fun d mIdx => "2026-" ++ pad2S (mIdx + 1) ++ "-" ++ pad2S d,
    weekdayISO := fun i => "2026-10-" ++ toString (sampleWdDay i),
    weekdayStrictISO := fun i => "2026-10-" ++ toString (sampleWdDayStrict i),
    isoDisp := fun _ m d => fmtDisp d (m - 1) }

/-! ## Claim theorems -/

/-! ### C10 — `parseGuests` range -/

theorem boundOk_range {o : Option Nat} {n : Nat} (h : boundOk o = some n) :
    1 ≤ n ∧ n ≤ 50 := by
  cases o with
  | none => simp [boundOk] at h
  | some m =>
    have h' : (if 1 ≤ m ∧ m ≤ 50 then some m else none) = some n := h
    by_cases hc : 1 ≤ m ∧ m ≤ 50
    · rw [if_pos hc] at h'
      cases h'
      exact hc
    · rw [if_neg hc] at h'
      cases h'

theorem firstSome_map_boundOk (l : List (Option Nat)) (n : Nat)
    (h : firstSome (l.map boundOk) = some n) : 1 ≤ n ∧ n ≤ 50 := by
  induction l with
  | nil => simp [firstSome] at h
  | cons o t ih =>
    simp only [List.map, firstSome] at h
    cases ho : boundOk o with
    | some m =>
      rw [ho] at h
      simp only [Option.orElse] at h
      cases h
      exact boundOk_range ho
    | none =>
      rw [ho] at h
      simp only [Option.orElse] at h
      exact ih h

/-- C10.  For every input string, `parseGuests` returns either `none` or a
    guest count `n` with `1 ≤ n ≤ 50` — the bound applies to standalone
    number replies, category sums, and all qualified-phrase patterns. -/
theorem parseGuests_in_range (t : String) (n : Nat) (h : parseGuests t = some n) :
    1 ≤ n ∧ n ≤ 50 := by
  simp only [parseGuests] at h
  split at h
  · cases h
  · split at h
    · cases h
    · split at h
      next m hsolo =>
        split at h
        · cases h; assumption
        · cases h
      next hsolo =>
        split at h
        next hcat =>
          cases h
          exact of_decide_eq_true (Bool.and_elim_right hcat)
        next hcat => exact firstSome_map_boundOk _ _ h

/-- C10 witness: the theorem applied at the concrete reply "3 people". -/
theorem parseGuests_in_range_witness : 1 ≤ 3 ∧ 3 ≤ 50 :=
  parseGuests_in_range "3 people" 3 (by decide)

/-! ### C9 — classifier priority order -/

/-- C9.  For every input text, `decide` classifies exactly as the
    specification's priority list: a negative-keyword or service-keyword
    match gives SERVICE at confidence 0.9; otherwise chit-chat (when
    enabled for the property) matching greeting/thanks patterns gives
    CHITCHAT at 0.99; otherwise question-shaped text gives FAQ at 0.85;
    otherwise UNKNOWN at 0.5 — with the negative flag computed
    independently. -/
theorem decide_matches_priority_spec (cc : Option Bool) (text : String) :
    decide cc text = decisionSpec cc text := by
  unfold decide decisionSpec
  cases hn : detectNegative (ofChars (normalizeDE (trimS text))) <;>
    cases hs : detectService (ofChars (normalizeDE (trimS text))) <;>
      simp [hn, hs]

/-! ### C7 — the pause gate blocks regardless of deadline -/

/-- C7.  For every stored state with `paused = true` (whatever
    `resume_at`/`paused_until` hold, elapsed or not), an inbound guest
    message that is not a staff command is stopped by the pause gate: the
    router returns `{skipped: true, reason: 'paused'}`, emits no reply,
    and never proceeds to classification. -/
theorem pause_gate_blocks_all (st : ConvState) (text : String) (now arm : Nat)
    (hcmd : parseCommand text = none) (hp : st.paused = true) :
    intentRouterEntry st text now arm =
      { state := st, skipped := true, reason := "paused", escalated := none,
        replies := [], proceeds := false } := by
  unfold intentRouterEntry
  rw [hcmd]
  simp [pauseGate, hp]

/-- C7 witness: a paused state whose deadline has already elapsed
    (`resume_at = some 0`, `now = 10^9`) still blocks the guest message
    "hello". -/
theorem pause_gate_blocks_all_witness :
    intentRouterEntry
      { paused := true, resume_at := some 0, negative_count := 1 } "hello" 1000000000 30 =
      { state := { paused := true, resume_at := some 0, negative_count := 1 },
        skipped := true, reason := "paused", escalated := none,
        replies := [], proceeds := false } :=
  pause_gate_blocks_all _ "hello" 1000000000 30 (by decide) rfl

/-! ### C8 — soft escalation notifies exactly once per episode -/

/-- C8.  Starting from an un-escalated episode (`escalated = false`) with
    notification enabled (the `SOFTWATCH_NOTIFY_ONCE` default), two
    `handleSoftEscalation` calls for the same key produce exactly one
    staff notification — the `markEscalatedOnce` conditional update flips
    `escalated` false→true exactly once — while the second call still
    refreshes the labels, the priority, the open status, and the watch
    flag. -/
theorem soft_escalation_notifies_once (s : ConvState) (opts : SoftEscalationOpts)
    (hesc : s.escalated = false)
    (hn : opts.notifyOnce.getD SOFTWATCH_NOTIFY_ONCE_default = true) :
    (handleSoftEscalation s opts).notified = true ∧
    (handleSoftEscalation (handleSoftEscalation s opts).state opts).notified = false ∧
    (handleSoftEscalation (handleSoftEscalation s opts).state opts).labels.head? =
      some NEEDS_STAFF_LABEL ∧
    (handleSoftEscalation (handleSoftEscalation s opts).state opts).priority =
      priorityFromSignal opts.intent opts.negativeCount opts.text opts.issue ∧
    (handleSoftEscalation (handleSoftEscalation s opts).state opts).statusSet = "open" ∧
    (handleSoftEscalation (handleSoftEscalation s opts).state opts).state.watch_mode = true ∧
    (handleSoftEscalation (handleSoftEscalation s opts).state opts).state.escalated = true := by
  refine ⟨?_, ?_, ?_, ?_, ?_, ?_, ?_⟩ <;>
    simp [handleSoftEscalation, markEscalatedOnce, enterSoftWatch, hesc, hn]

/-- C8 witness: two soft escalations from the fresh state with default
    options notify exactly once. -/
theorem soft_escalation_notifies_once_witness :
    (handleSoftEscalation {} {}).notified = true ∧
    (handleSoftEscalation (handleSoftEscalation {} {}).state {}).notified = false :=
  ⟨(soft_escalation_notifies_once {} {} rfl (by decide)).1,
   (soft_escalation_notifies_once {} {} rfl (by decide)).2.1⟩

/-! ### C5 — which operations reset which counters (corrected) -/

/-- C5 counterexample: the staff `@boton` resume (`resumeBot`, which runs
    `clearPause` + `resetNegativeCount`) leaves `clarify_attempts`
    untouched, so "both counters are reset by every resume operation" is
    false. -/
theorem resumeBot_keeps_clarify_counterexample :
    (resumeBot { paused := true, clarify_attempts := 1, negative_count := 1 } 0).state.clarify_attempts
      ≠ 0 := by decide

/-- C5 amended: the auto-resume sweep (`resumeNow`) and resolve
    (`clearState`) reset both `clarify_attempts` and `negative_count` to
    zero; the staff `@boton` resume (`resumeBot`) resets only
    `negative_count` and leaves `clarify_attempts` unchanged. -/
theorem resume_resolve_counter_resets (s : ConvState) (now : Nat) :
    (resumeNow s).clarify_attempts = 0 ∧ (resumeNow s).negative_count = 0 ∧
    (clearState s).clarify_attempts = 0 ∧ (clearState s).negative_count = 0 ∧
    (resumeBot s now).state.negative_count = 0 ∧
    (resumeBot s now).state.clarify_attempts = s.clarify_attempts := by
  simp [resumeNow, clearState, resumeBot, clearPause, resetNegativeCount]

/-! ### C3 — resolve clears flags and counters but not the flow (corrected) -/

/-- C3 counterexample: after `resolveConversation` (the `@resolve`
    command), a stored `service_flow` payload is still there — `clearState`
    never touches that column, so "the service_flow payload is cleared to
    null" is false. -/
theorem resolve_leaves_service_flow_counterexample :
    (resolveConversation
      { paused := true, escalated := true, watch_mode := true,
        clarify_attempts := 2, negative_count := 1,
        service_flow := some { service_key := some "BOOK_TABLE" } }).state.service_flow
      ≠ none := by decide

/-- C3 amended: `resolveConversation` forces the resolved status and fully
    resets the pause fields, `escalated`, `watch_mode` and both counters,
    but leaves the `service_flow` payload exactly as it was (it is not set
    to null). -/
theorem resolve_clears_flags_keeps_flow (s : ConvState) :
    (resolveConversation s).statusSet = "resolved" ∧
    (resolveConversation s).state =
      { paused := false, resume_at := none, paused_until := none,
        escalated := false, watch_mode := false, clarify_attempts := 0,
        negative_count := 0, service_flow := s.service_flow } := by
  cases s
  exact ⟨rfl, rfl⟩

/-! ### C2 — `@botoff 15` ignores the minutes argument (corrected) -/

/-- C2 counterexample: staff send `@botoff 15` (fresh state, `now = 0`,
    `AUTO_RESUME_MINUTES` unset so the default 30 applies): the state does
    become paused, but the resume deadline is `now + 30` minutes, not
    `now + 15` minutes — the numeric argument does not determine the
    deadline. -/
theorem botoff_minutes_ignored_counterexample :
    webhookAgentCommand {} "@botoff 15" 0 =
      WebhookCmdOut.hardPaused
        { paused := true, resume_at := some 1800000, paused_until := none,
          watch_mode := false } ∧
    (1800000 : Nat) ≠ 15 * 60000 := by
  exact ⟨by decide, by decide⟩

/-- C2 amended: `@botoff` with *any* argument text hard-pauses the
    conversation (`paused = true`) with the resume deadline
    `now + AUTO_RESUME_MINUTES·60000` (default 30 minutes): the webhook
    only tests `/@botoff/i` and never parses the minutes argument. -/
theorem botoff_pauses_with_env_minutes (s : ConvState) (arg : String) (now env : Nat) :
    webhookAgentCommand s ("@botoff " ++ arg) now env =
      WebhookCmdOut.hardPaused
        { s with
          paused := true,
          resume_at := some (now + env * 60000),
          paused_until := none,
          watch_mode := false } := by
  have hsub : containsSub (chars "@botoff") (lowerL (chars ("@botoff " ++ arg))) = true := by
    have hdata : chars ("@botoff " ++ arg) = chars "@botoff " ++ chars arg := by
      simp [chars, String.data_append]
    rw [hdata, lowerL, List.map_append]
    have hlow : (chars "@botoff ").map lowerChar = chars "@botoff" ++ [' '] := by decide
    rw [hlow, List.append_assoc]
    have hpfx : ∀ (w r : List Char), pfx w (w ++ r) = some r := by
      intro w
      induction w with
      | nil => intro r; rfl
      | cons c t ih => intro r; simp [pfx, ih]
    cases h : chars "@botoff" ++ ([' '] ++ List.map lowerChar (chars arg)) with
    | nil => simp [chars] at h
    | cons c cs =>
      rw [containsSub, ← h, hpfx]
      simp
  unfold webhookAgentCommand
  rw [hsub]
  simp [handleHardPause, manualPauseForMinutes]

/-! ### C6 — the "friday 8pm for 2 under koen" scenario (corrected) -/

/-- The flow actually stored for the first message
    "book a table for friday 8pm for 2 people under koen". -/
def c6Flow : Flow :=
  { service_key := some "BOOK_TABLE",
    required := some ["guests", "time", "date", "name"],
    collected := [("guests", FVal.vn 2), ("time", FVal.vs "8:00 pm"),
                  ("name", FVal.vs "koen")],
    next := some "date",
    pending_time_raw := none }

/-- C6 counterexample: with the concrete calendar `sampleEnv`, the input
    "book a table for friday 8pm for 2 people under koen" with
    `required = [guests,time,date,name]` does **not** immediately reach
    Confirm: no date is collected ("friday" is missed because the generic
    weekday scan `\b([a-z]{3,})\b` only examines the first alphabetic word,
    "book"), so the flow asks for the date (`next = "date"`, not
    `"confirm"`). -/
theorem c6_not_confirm_counterexample :
    handleService sampleEnv none "book a table for friday 8pm for 2 people under koen" =
      ⟨some c6Flow, some "Yes, I can take your booking.\nWhich date?",
       "start_flow_regex_prefill", false⟩ ∧
    c6Flow.next = some "date" ∧ c6Flow.next ≠ some "confirm" ∧
    getF "date" c6Flow.collected = none ∧
    parseDate sampleEnv "book a table for friday 8pm for 2 people under koen" = none := by
  exact ⟨rfl, rfl, by decide, rfl, rfl⟩

/-- C6 amended: for *every* calendar environment, the scenario message
    starts a BOOK_TABLE flow that prefills guests = 2, time = "8:00 pm"
    and name = "koen", but extracts no date (both date parsers return
    `none` on this message), so the flow asks 📅 for the date instead of
    reaching Confirm. -/
theorem c6_scenario_asks_for_date (env : DateEnv) :
    parseDate env "book a table for friday 8pm for 2 people under koen" = none ∧
    normalizeDateToISO env "book a table for friday 8pm for 2 people under koen" = none ∧
    handleService env none "book a table for friday 8pm for 2 people under koen" =
      ⟨some c6Flow, some "Yes, I can take your booking.\nWhich date?",
       "start_flow_regex_prefill", false⟩ := by
  exact ⟨rfl, rfl, rfl⟩

/-! ### C1 — ambiguous bare hours and the clarification transition
    (corrected) -/

/-- C1 counterexample: in the legacy `pending`/`ask_change` edit path,
    "time 7" (a bare hour 1–12, no am/pm, no daypart) is accepted directly
    by `tryFieldUpdate` and the flow moves straight to the Confirm stage —
    no `pending_time_raw` exists and no clarification is asked (the
    summary displays a guessed "7:00 AM"); with "8 o'clock" the same path
    even displays a time with no am/pm indicator at all. -/
theorem c1_legacy_no_clarify_counterexample :
    (handleService sampleEnv
        (some { pending := some {}, step := some "ask_change" }) "time 7" =
      ⟨some { pending := some { time := some "7:00" }, step := some "confirm" },
       some ("Please confirm your booking details:\n• Name: -\n• Guests: -\n• Date: -\n• Time: 7:00 AM\nReply 'Yes' to send, or 'No' to edit."),
       "confirm_after_edit", false⟩) ∧
    (handleService sampleEnv
        (some { pending := some {}, step := some "ask_change" }) "8 o'clock" =
      ⟨some { pending := some { time := some "8 o'clock" }, step := some "confirm" },
       some ("Please confirm your booking details:\n• Name: -\n• Guests: -\n• Date: -\n• Time: 8 o'clock\nReply 'Yes' to send, or 'No' to edit."),
       "confirm_after_edit", false⟩) ∧
    formatAmPm "8 o'clock" = "8 o'clock" ∧
    containsSub (chars "am") (lowerL (chars "8 o'clock")) = false ∧
    containsSub (chars "pm") (lowerL (chars "8 o'clock")) = false := by
  exact ⟨rfl, rfl, rfl, by decide, by decide⟩

/-- Bare hour messages 1–12. -/
def bareHourMsgs : List String :=
  ["1", "2", "3", "4", "5", "6", "7", "8", "9", "10", "11", "12"]

/-- The full slot-filling shape clarifies a bare hour: generic step lemma
    given the concrete parse facts about the message. -/
theorem fullStep_time_clarify (env : DateEnv) (f : Flow) (m : String)
    (hpend : f.pending = none) (hkey : f.service_key.isSome = true)
    (hnext : f.next = some "time") (hpraw : f.pending_time_raw = none)
    (htrim : trimS m = m) (hne : ¬ (m = ""))
    (hpt : parseTime m = some m) (hnt : normalizeTime m = none)
    (hneeds : timeNeedsAmPm m m = true) :
    handleService env (some f) m =
      ⟨some { f with
              required := some (f.required.getD
                ((requiredFields (f.service_key.getD "")).getD [])),
              pending_time_raw := some m },
       some (clarifyTimeText m), "time_clarify", false⟩ := by
  obtain ⟨sk, req, coll, nxt, praw, pend, stp⟩ := f
  obtain ⟨k, rfl⟩ : ∃ k, sk = some k := Option.isSome_iff_exists.mp hkey
  simp only [Flow.pending] at hpend
  simp only [Flow.next] at hnext
  simp only [Flow.pending_time_raw] at hpraw
  subst hpend hnext hpraw
  simp only [handleService, legacyStep, fullStep, fullStep.slotStep, parseForField,
    htrim, hne, hpt, if_false, if_true, Option.isSome_some, Option.getD_some,
    Option.isNone_none, Option.map_some, Option.orElse, Option.some.injEq,
    Bool.true_and, Bool.and_true, and_true, reduceIte, reduceCtorEq]
  rw [if_neg (show ¬ ("time" = "confirm") from by decide)]
  simp only [Option.map_some', Option.getD_some, Option.isSome_some, true_and, and_self,
    if_true, reduceIte, fvalStr]
  simp only [hnt, hneeds, Option.isNone_none, Bool.true_and, if_true, reduceIte]

/-- C1 amended: in the full slot-filling shape, when the engine is asking
    for the time slot, every bare hour message 1–12 (no am/pm suffix, no
    daypart word) triggers the time-clarification transition — the raw
    hour is stored as `pending_time_raw`, the step is `time_clarify`, and
    `next` stays at `"time"` rather than `"confirm"` — and every collected
    time in the normalized `H:MM` shape is displayed by the confirmation
    summary with an explicit (`formatAmPm`-guessed) AM/PM indicator.  The
    legacy `pending`/`ask_change` edit path, by contrast, accepts an
    ambiguous hour directly (see the counterexample). -/
theorem c1_bare_hour_clarifies_before_confirm :
    (∀ (env : DateEnv) (f : Flow) (m : String),
      f.pending = none → f.service_key.isSome = true → f.next = some "time" →
      f.pending_time_raw = none → m ∈ bareHourMsgs →
      (handleService env (some f) m).stepTag = "time_clarify" ∧
      ∃ g, (handleService env (some f) m).flow' = some g ∧
        g.pending_time_raw = some m ∧ g.next = some "time" ∧
        g.collected = f.collected) ∧
    (∀ (t : String) (hh : Nat) (mm : List Char), hmmMatch (chars t) = some (hh, mm) →
      (∃ c, formatAmPm t = c ++ "AM") ∨ (∃ c, formatAmPm t = c ++ "PM")) := by
  constructor
  · intro env f m hpend hkey hnext hpraw hm
    have facts : trimS m = m ∧ ¬ (m = "") ∧ parseTime m = some m ∧
        normalizeTime m = none ∧ timeNeedsAmPm m m = true := by
      fin_cases hm <;> exact ⟨rfl, by decide, rfl, rfl, rfl⟩
    rw [fullStep_time_clarify env f m hpend hkey hnext hpraw
      facts.1 facts.2.1 facts.2.2.1 facts.2.2.2.1 facts.2.2.2.2]
    exact ⟨rfl, _, rfl, rfl, hnext, rfl⟩
  · intro t hh mm h
    have hfmt : formatAmPm t =
        toString (if (if hh = 0 then 12 else hh) > 12 then (if hh = 0 then 12 else hh) - 12
                  else (if hh = 0 then 12 else hh)) ++ ":" ++ ofChars mm ++ " " ++
          (if 12 ≤ hh then "PM" else "AM") := by
      unfold formatAmPm
      rw [h]
    by_cases hge : 12 ≤ hh
    · rw [if_pos hge] at hfmt
      exact Or.inr ⟨_, hfmt⟩
    · rw [if_neg hge] at hfmt
      exact Or.inl ⟨_, hfmt⟩

/-- A concrete flow asking for the time slot. -/
def c1WitnessFlow : Flow :=
  { service_key := some "BOOK_TABLE",
    required := some ["guests", "time", "date", "name"],
    collected := [("guests", FVal.vn 2)],
    next := some "time" }

/-- C1 witness: the amended theorem applied to the concrete flow above
    with the bare hour "7" (and `formatAmPm` on "19:30"). -/
theorem c1_bare_hour_clarifies_witness :
    ((handleService sampleEnv (some c1WitnessFlow) "7").stepTag = "time_clarify" ∧
     ∃ g, (handleService sampleEnv (some c1WitnessFlow) "7").flow' = some g ∧
       g.pending_time_raw = some "7" ∧ g.next = some "time" ∧
       g.collected = c1WitnessFlow.collected) ∧
    ((∃ c, formatAmPm "19:30" = c ++ "AM") ∨ (∃ c, formatAmPm "19:30" = c ++ "PM")) :=
  ⟨c1_bare_hour_clarifies_before_confirm.1 sampleEnv c1WitnessFlow "7"
      rfl rfl rfl rfl (by decide),
   c1_bare_hour_clarifies_before_confirm.2 "19:30" 19 ['3', '0'] (by decide)⟩

/-! ### C4 — what the `collected` map may contain (corrected) -/

def fourFields : List String := ["guests", "time", "date", "name"]

/-- The invariant actually maintained by the dialog engine on stored
    full-shape flows. -/
structure FlowInv (f : Flow) : Prop where
  keys : ∀ k, (getF k f.collected).isSome = true → k ∈ fourFields
  pend : f.pending = none
  keyreq : ∃ key req, f.service_key = some key ∧ requiredFields key = some req ∧
      f.required = some req
  next_ok : ∀ n, f.next = some n → n ∈ f.required.getD [] ∨ n = "confirm"

theorem getF_nil (k : String) : getF k [] = none := rfl

theorem getF_cons (k a : String) (b : FVal) (t : Collected) :
    getF k ((a, b) :: t) = if a = k then some b else getF k t := by
  by_cases hak : a = k
  · rw [if_pos hak]
    unfold getF
    rw [List.find?_cons_of_pos _ (by simp [hak])]
    rfl
  · rw [if_neg hak]
    unfold getF
    rw [List.find?_cons_of_neg _ (by simp [hak])]

theorem getF_setF (k k' : String) (v : FVal) (c : Collected) :
    getF k (setF k' v c) = if k' = k then some v else getF k c := by
  induction c with
  | nil =>
    rw [setF, getF_cons, getF_nil]
  | cons p t ih =>
    obtain ⟨a, b⟩ := p
    rw [setF]
    by_cases hk' : a = k'
    · rw [if_pos hk', getF_cons]
      by_cases hkk : k' = k
      · rw [if_pos hkk, if_pos hkk]
      · rw [if_neg hkk, if_neg hkk, getF_cons,
          if_neg (by rw [hk']; exact hkk)]
    · rw [if_neg hk', getF_cons, ih, getF_cons]
      by_cases h1 : a = k
      · by_cases h2 : k' = k
        · exact absurd (h1.trans h2.symm) hk'
        · rw [if_pos h1, if_neg h2, if_pos h1]
      · by_cases h2 : k' = k
        · rw [if_neg h1, if_pos h2, if_pos h2]
        · rw [if_neg h1, if_neg h2, if_neg h2, if_neg h1]

theorem getF_setF_isSome {k k' : String} {v : FVal} {c : Collected}
    (h : (getF k (setF k' v c)).isSome = true) :
    k = k' ∨ (getF k c).isSome = true := by
  rw [getF_setF] at h
  by_cases hk : k' = k
  · exact Or.inl hk.symm
  · rw [if_neg hk] at h
    exact Or.inr h

theorem orElse_isSome {α : Type} {a : Option α} {f : Unit → Option α}
    (h : (a.orElse f).isSome = true) : a.isSome = true ∨ (f ()).isSome = true := by
  cases a with
  | some x => exact Or.inl rfl
  | none => exact Or.inr h

theorem getF_append (k : String) (c1 c2 : Collected) :
    getF k (c1 ++ c2) = (getF k c1).orElse (fun _ => getF k c2) := by
  induction c1 with
  | nil => rfl
  | cons p t ih =>
    obtain ⟨a, b⟩ := p
    rw [List.cons_append, getF_cons, getF_cons]
    by_cases hak : a = k
    · rw [if_pos hak, if_pos hak]
      rfl
    · rw [if_neg hak, if_neg hak, ih]

theorem getF_optEntry {α : Type} {k key : String} {o : Option α} {mk : α → FVal}
    (h : (getF k ((o.map (fun v => [(key, mk v)])).getD [])).isSome = true) : k = key := by
  cases o with
  | none => simp [getF_nil] at h
  | some v =>
    simp only [Option.map_some', Option.getD_some] at h
    rw [getF_cons] at h
    by_cases hk : key = k
    · exact hk.symm
    · rw [if_neg hk, getF_nil] at h
      simp at h

theorem prefillCollected_keys (pre : Prefill) (k : String)
    (h : (getF k (prefillCollected pre)).isSome = true) : k ∈ fourFields := by
  unfold prefillCollected at h
  rw [getF_append, getF_append, getF_append] at h
  rcases orElse_isSome h with h3 | h4
  · rcases orElse_isSome h3 with h2 | hd
    · rcases orElse_isSome h2 with hg | ht
      · rw [getF_optEntry hg]
        decide
      · rw [getF_optEntry ht]
        decide
    · rw [getF_optEntry hd]
      decide
  · rw [getF_optEntry h4]
    decide

theorem head?_mem {α : Type} {l : List α} {a : α} (h : l.head? = some a) : a ∈ l := by
  cases l with
  | nil => cases h
  | cons x xs =>
    rw [List.head?_cons, Option.some.injEq] at h
    rw [← h]
    exact List.mem_cons_self x xs

theorem head?_filter_mem {p : String → Bool} {l : List String} {a : String}
    (h : (l.filter p).head? = some a) : a ∈ l :=
  List.mem_of_mem_filter (head?_mem h)

theorem requiredFields_props {k : String} {req : List String}
    (h : requiredFields k = some req) :
    (∀ x ∈ req, x ∈ fourFields) ∧ "time" ∈ req := by
  unfold requiredFields at h
  split at h
  · cases h; decide
  · cases h; decide
  · cases h; decide
  · cases h

theorem startFlow_inv {env : DateEnv} {key msg tag : String} {req : List String} {f : Flow}
    (hreq : requiredFields key = some req)
    (h : (startFlow env key msg tag).flow' = some f) : FlowInv f := by
  unfold startFlow at h
  simp only [hreq, Option.getD_some] at h
  split at h
  · -- pending time: the stored flow asks with `missing.head?`
    cases h
    refine ⟨fun k hk => prefillCollected_keys _ k hk, rfl, ⟨key, req, rfl, hreq, rfl⟩, ?_⟩
    intro n hn
    exact Or.inl (by simpa using head?_filter_mem hn)
  · split at h
    · cases h
      refine ⟨fun k hk => prefillCollected_keys _ k hk, rfl, ⟨key, req, rfl, hreq, rfl⟩, ?_⟩
      intro n hn
      exact Or.inl (by simpa using head?_filter_mem hn)
    · cases h
      refine ⟨fun k hk => prefillCollected_keys _ k hk, rfl, ⟨key, req, rfl, hreq, rfl⟩, ?_⟩
      intro n hn
      cases hn
      exact Or.inr rfl

theorem finishStep_inv {f : Flow} {req : List String} {coll : Collected} {key : String}
    (hkeys : ∀ k, (getF k coll).isSome = true → k ∈ fourFields)
    (hpend : f.pending = none) (hkey : f.service_key = some key)
    (hreq : requiredFields key = some req)
    {f' : Flow} (h : (fullStep.finishStep f req coll).flow' = some f') :
    FlowInv f' ∧ f'.collected = coll := by
  simp only [fullStep.finishStep] at h
  split at h
  next nxt hhd =>
    cases h
    refine ⟨⟨hkeys, hpend, ⟨key, req, hkey, hreq, rfl⟩, ?_⟩, rfl⟩
    intro n hn
    injection hn with hn
    subst hn
    exact Or.inl (by simpa using head?_filter_mem hhd)
  next hhd =>
    cases h
    refine ⟨⟨hkeys, hpend, ⟨key, req, hkey, hreq, rfl⟩, ?_⟩, rfl⟩
    intro n hn
    injection hn with hn
    exact Or.inr hn.symm

theorem slotStep_inv {env : DateEnv} {f : Flow} {req : List String} {coll : Collected}
    {cfo : Option String} {msg : String} {key : String}
    (hkeys : ∀ k, (getF k coll).isSome = true → k ∈ fourFields)
    (hpend : f.pending = none) (hkey : f.service_key = some key)
    (hreq : requiredFields key = some req)
    (hnext : ∀ n, f.next = some n → n ∈ req ∨ n = "confirm")
    (hcf : ∀ c, cfo = some c → c ∈ req)
    {f' : Flow} (h : (fullStep.slotStep env f req coll cfo msg).flow' = some f') :
    FlowInv f' ∧ ∀ k, (getF k f'.collected).isSome = true →
      (getF k coll).isSome = true ∨ k ∈ req := by
  have hprops := requiredFields_props hreq
  cases cfo with
  | none =>
    -- currentField = none: straight to finishStep
    simp only [fullStep.slotStep] at h
    obtain ⟨inv, hc⟩ := finishStep_inv hkeys hpend hkey hreq h
    exact ⟨inv, fun k hk => Or.inl (by rw [← hc]; exact hk)⟩
  | some cf =>
    have hcfreq : cf ∈ req := hcf cf rfl
    simp only [fullStep.slotStep] at h
    split at h
    next htime =>
      -- time slot with a parsed value
      split at h
      · -- ambiguous hour: store pending_time_raw, collected untouched
        cases h
        refine ⟨⟨hkeys, hpend, ⟨key, req, hkey, hreq, rfl⟩, ?_⟩, fun k hk => Or.inl hk⟩
        intro n hn
        rcases hnext n hn with hmem | hcfm
        · exact Or.inl hmem
        · exact Or.inr hcfm
      · -- accepted time: finishStep over collected + time
        obtain ⟨inv, hc⟩ := finishStep_inv
          (fun k hk => by
            rcases getF_setF_isSome hk with hkt | hold
            · rw [hkt]; decide
            · exact hkeys k hold)
          hpend hkey hreq h
        refine ⟨inv, fun k hk => ?_⟩
        rw [hc] at hk
        rcases getF_setF_isSome hk with hkt | hold
        · rw [hkt]; exact Or.inr hprops.2
        · exact Or.inl hold
    next htime =>
      split at h
      next hdate =>
        split at h
        · -- unclear date: re-ask the date slot
          cases h
          refine ⟨⟨hkeys, hpend, ⟨key, req, hkey, hreq, rfl⟩, ?_⟩, fun k hk => Or.inl hk⟩
          intro n hn
          injection hn with hn
          subst hn
          exact Or.inl (by rw [← hdate]; exact hcfreq)
        · -- accepted date
          obtain ⟨inv, hc⟩ := finishStep_inv
            (fun k hk => by
              rcases getF_setF_isSome hk with hkt | hold
              · rw [hkt]; decide
              · exact hkeys k hold)
            hpend hkey hreq h
          refine ⟨inv, fun k hk => ?_⟩
          rw [hc] at hk
          rcases getF_setF_isSome hk with hkt | hold
          · rw [hkt, ← hdate]; exact Or.inr hcfreq
          · exact Or.inl hold
      next hdate =>
        split at h
        next v hval =>
          -- generic slot parsed: store under the current field name
          obtain ⟨inv, hc⟩ := finishStep_inv
            (fun k hk => by
              rcases getF_setF_isSome hk with hkt | hold
              · rw [hkt]; exact hprops.1 cf hcfreq
              · exact hkeys k hold)
            hpend hkey hreq h
          refine ⟨inv, fun k hk => ?_⟩
          rw [hc] at hk
          rcases getF_setF_isSome hk with hkt | hold
          · rw [hkt]; exact Or.inr hcfreq
          · exact Or.inl hold
        next hval =>
          obtain ⟨inv, hc⟩ := finishStep_inv hkeys hpend hkey hreq h
          exact ⟨inv, fun k hk => Or.inl (by rw [← hc]; exact hk)⟩

theorem fullStep_inv {env : DateEnv} {f : Flow} {msg : String} {key : String}
    {req : List String}
    (hkeys : ∀ k, (getF k f.collected).isSome = true → k ∈ fourFields)
    (hpend : f.pending = none) (hkey : f.service_key = some key)
    (hreq : requiredFields key = some req) (hfreq : f.required = some req)
    (hnext : ∀ n, f.next = some n → n ∈ req ∨ n = "confirm")
    {f' : Flow} (h : (fullStep env f msg).flow' = some f') :
    FlowInv f' ∧ ∀ k, (getF k f'.collected).isSome = true →
      (getF k f.collected).isSome = true ∨ k ∈ req := by
  have hprops := requiredFields_props hreq
  simp only [fullStep, hfreq, Option.getD_some] at h
  split at h
  next hconf =>
    -- confirm stage
    split at h
    · exact absurd h (by simp)
    · split at h
      · -- "no": restart with empty collected
        cases h
        refine ⟨⟨?_, hpend, ⟨key, req, hkey, hreq, rfl⟩, ?_⟩, ?_⟩
        · intro k hk
          simp [getF_nil] at hk
        · intro n hn
          exact Or.inl (head?_mem hn)
        · intro k hk
          simp [getF_nil] at hk
      · -- repeat the confirmation: flow unchanged
        cases h
        refine ⟨⟨hkeys, hpend, ⟨key, req, hkey, hreq, hfreq⟩, ?_⟩, fun k hk => Or.inl hk⟩
        intro n hn
        rw [hfreq]
        exact hnext n hn
  next hnotconf =>
    have hcf : ∀ c,
        (f.next.orElse fun _ =>
          (req.filter (fun x => (getF x f.collected).isNone)).head?) = some c →
        c ∈ req := by
      intro c hc
      cases hfn : f.next with
      | some n =>
        rw [hfn] at hc
        injection hc with hc
        rcases hnext n hfn with hmem | hcfm
        · rw [← hc]
          exact hmem
        · exact absurd (by rw [hfn, hcfm]) hnotconf
      | none =>
        rw [hfn] at hc
        exact head?_filter_mem hc
    split at h
    next praw hpraw =>
      split at h
      next comb hcomb =>
        -- AM/PM clarifier fired: merge the pending hour into `time`
        split at h
        · cases h
          refine ⟨⟨?_, hpend, ⟨key, req, hkey, hreq, rfl⟩, ?_⟩, ?_⟩
          · intro k hk
            rcases getF_setF_isSome hk with hkt | hold
            · rw [hkt]; decide
            · exact hkeys k hold
          · intro n hn
            exact Or.inl (head?_filter_mem hn)
          · intro k hk
            rcases getF_setF_isSome hk with hkt | hold
            · rw [hkt]; exact Or.inr hprops.2
            · exact Or.inl hold
        · cases h
          refine ⟨⟨?_, hpend, ⟨key, req, hkey, hreq, rfl⟩, ?_⟩, ?_⟩
          · intro k hk
            rcases getF_setF_isSome hk with hkt | hold
            · rw [hkt]; decide
            · exact hkeys k hold
          · intro n hn
            injection hn with hn
            exact Or.inr hn.symm
          · intro k hk
            rcases getF_setF_isSome hk with hkt | hold
            · rw [hkt]; exact Or.inr hprops.2
            · exact Or.inl hold
      next hcomb =>
        exact slotStep_inv hkeys hpend hkey hreq hnext hcf h
    next hpraw =>
      exact slotStep_inv hkeys hpend hkey hreq hnext hcf h

theorem handleService_inv {env : DateEnv} {f : Flow} {msg : String}
    (inv : FlowInv f) {f' : Flow}
    (h : (handleService env (some f) msg).flow' = some f') :
    FlowInv f' ∧ ∀ k, (getF k f'.collected).isSome = true →
      (getF k f.collected).isSome = true ∨ k ∈ f.required.getD [] := by
  obtain ⟨key, req, hkey, hreq, hfreq⟩ := inv.keyreq
  have hnext : ∀ n, f.next = some n → n ∈ req ∨ n = "confirm" := by
    intro n hn
    have := inv.next_ok n hn
    rwa [hfreq, Option.getD_some] at this
  rw [hfreq, Option.getD_some]
  simp only [handleService] at h
  split at h
  · -- empty message: flow stored back unchanged
    have hf : f = f' := by
      first
      | exact h
      | injection h
    subst hf
    exact ⟨inv, fun k hk => Or.inl hk⟩
  · simp only [inv.pend, hkey, Option.isSome_some, if_true] at h
    exact fullStep_inv inv.keys inv.pend hkey hreq hfreq hnext h

theorem reachable_inv {env : DateEnv} {f : Flow} (hr : ReachableFlow env f) :
    FlowInv f := by
  induction hr with
  | start key msg req tag hreq g hf => exact startFlow_inv hreq hf
  | step g msg g' hg hf ih => exact (handleService_inv ih hf).1

/-- The flow stored by `handleService` for the guest message
    "late checkout for 3 people" (regex start of LATE_CHECKOUT). -/
def c4Flow : Flow :=
  { service_key := some "LATE_CHECKOUT"
    required := some ["time", "name"]
    collected := [("guests", FVal.vn 3)]
    next := some "time"
    pending_time_raw := none
    pending := none
    step := none }

/-- **C4** (counterexample). The spec says the `collected` map of a stored
    service flow "only contains keys listed in the flow's `required` array".
    False: the start-flow prefill copies every parsed slot into `collected`
    unconditionally, so "late checkout for 3 people" starts a LATE_CHECKOUT
    flow (required = time, name) whose `collected` already holds `guests`. -/
theorem c4_prefill_outside_required_counterexample :
    ReachableFlow sampleEnv c4Flow ∧
    c4Flow.required = some ["time", "name"] ∧
    (getF "guests" c4Flow.collected).isSome = true ∧
    "guests" ∉ ["time", "name"] :=
  ⟨ReachableFlow.start "LATE_CHECKOUT" "late checkout for 3 people" ["time", "name"]
      "start_flow_regex_prefill" rfl c4Flow rfl,
   rfl, rfl, by decide⟩

/-- **C4** (amended). What actually holds of every reachable stored flow:
    `collected` only ever contains keys among the four slot names
    `guests`, `time`, `date`, `name` (not necessarily required ones), and
    keys added by a post-start `handleService` step are always required
    ones — only the initial prefill can put a non-required key in. -/
theorem c4_collected_keys_amended (env : DateEnv) (f : Flow)
    (hr : ReachableFlow env f) :
    (∀ k, (getF k f.collected).isSome = true → k ∈ fourFields) ∧
    ∀ (msg : String) (f' : Flow),
      (handleService env (some f) msg).flow' = some f' →
      ∀ k, (getF k f'.collected).isSome = true →
        (getF k f.collected).isSome = true ∨ k ∈ f.required.getD [] := by
  have inv := reachable_inv hr
  exact ⟨inv.keys, fun msg f' h => (handleService_inv inv h).2⟩

theorem c4_collected_keys_amended_witness :
    (∀ k, (getF k c4Flow.collected).isSome = true → k ∈ fourFields) ∧
    ∀ (msg : String) (f' : Flow),
      (handleService sampleEnv (some c4Flow) msg).flow' = some f' →
      ∀ k, (getF k f'.collected).isSome = true →
        (getF k c4Flow.collected).isSome = true ∨ k ∈ c4Flow.required.getD [] :=
  c4_collected_keys_amended sampleEnv c4Flow
    (ReachableFlow.start "LATE_CHECKOUT" "late checkout for 3 people" ["time", "name"]
      "start_flow_regex_prefill" rfl c4Flow rfl)

end Orchestrator
